import Mathlib

/-!
Verification development for the elementpath core modules
(`todp_parser.py`, `xpath_token.py`, `xpath_nodes.py`, `xpath_context.py`).

The Python sources are shallowly embedded: pure functions become Lean
functions, stateful code threads an explicit state record, machine-level
failures (exceptions) are modelled with `Except`.  Unbounded loops of the
source are driven by an explicit fuel parameter; running out of fuel is the
distinct error `outOfFuel`, which no theorem below identifies with a source
behaviour.  The embedding follows the Python semantics that the sources were
written against (Python < 3.7 `re.escape`, which escapes every
non-alphanumeric character; the `elif s[-4:] == r'\:\:'` branch of
`symbol_escape` presupposes exactly that).
-/

namespace ElementPath

/-! ## Character helpers (Python `re` classes used by the tokenizer) -/

/-- Python `\s` (whitespace) class membership for the tokenizer. -/
def wsChar (c : Char) : Bool :=
  c = ' ' || c = '\t' || c = '\n' || c = '\r' || c = Char.ofNat 11 || c = Char.ofNat 12

/-- Python `\w` (word character) class, used for `\b` boundaries. -/
def wordChar (c : Char) : Bool :=
  c.isAlphanum || c = '_'

/-- Python `str.strip()` on a character list. -/
def trimWS (cs : List Char) : List Char :=
  ((cs.dropWhile wsChar).reverse.dropWhile wsChar).reverse

/-- The left brace character (written via its code point). -/
def lbrace : Char := Char.ofNat 123

/-- The right brace character (written via its code point). -/
def rbrace : Char := Char.ofNat 125

/-! ## Raw tokenizer matches

`create_tokenizer` compiles a verbose regex with three capture groups:
literals, symbols (operators) and names; whitespace is skipped.  A raw
match is one of the three captures. -/

/-- One raw match of the compiled tokenizer: the literal, operator or name
capture group of `create_tokenizer`'s pattern. -/
inductive RawTok where
  | lit (cs : List Char)
  | op (cs : List Char)
  | nm (cs : List Char)
  deriving DecidableEq, Repr

/-- The text of a raw match. -/
def RawTok.text : RawTok → List Char
  | .lit cs => cs
  | .op cs => cs
  | .nm cs => cs

/-- Literal character-by-character matching of a pattern fragment against
the input; returns the rest of the input on success. -/
def litMatchCh : List Char → List Char → Option (List Char)
  | [], t => some t
  | _ :: _, [] => none
  | p :: ps, c :: cs => if p = c then litMatchCh ps cs else none

/-- Greedy `\s*` munch. -/
def munchWS : List Char → List Char :=
  List.dropWhile wsChar

/-- Python `str.isalpha()` for a symbol. -/
def isAlphaSym (s : List Char) : Bool :=
  !s.isEmpty && s.all Char.isAlpha

/-- Does the (escaped) symbol end in an opening parenthesis?
(`symbol_escape`'s first branch: `s[-2:] == r'\('`.) -/
def endsParen (s : List Char) : Bool :=
  s.getLast? = some '('

/-- Does the (escaped) symbol end in a double colon?
(`symbol_escape`'s second branch: `s[-4:] == r'\:\:'`, with the
pre-3.7 `re.escape` that escapes `:`.) -/
def endsDColon (s : List Char) : Bool :=
  match s.reverse with
  | ':' :: ':' :: _ => true
  | _ => false

/-- Word-boundary check against the character preceding the match site. -/
def boundaryBefore (prev : Option Char) : Bool :=
  match prev with
  | none => true
  | some c => !wordChar c

/-- Word-boundary check against the first character after the match. -/
def boundaryAfter (rest : List Char) : Bool :=
  match rest with
  | [] => true
  | c :: _ => !wordChar c

/-- The prefix of `t` that was consumed to leave `rest`. -/
def consumedOf (t rest : List Char) : List Char :=
  t.take (t.length - rest.length)

/-- Matching of one multi-character symbol at the current input position,
following `symbol_escape`:
* a symbol ending in `(` matches its body, then `\s*`, then `(`;
* a symbol ending in `::` matches its body, then `\s*`, then `::`;
* a purely alphabetic symbol is `\b`-anchored on both sides;
* any other symbol matches literally (embedded escaped blanks stay literal:
  the source's `s.replace(r'\ ', '\s+')` discards its result). -/
def matchEsc (sym : List Char) (prev : Option Char) (t : List Char) :
    Option (List Char × List Char) :=
  if endsParen sym then
    match litMatchCh sym.dropLast t with
    | none => none
    | some r1 =>
      let r2 := munchWS r1
      match litMatchCh ['('] r2 with
      | none => none
      | some r3 => some (consumedOf t r3, r3)
  else if endsDColon sym then
    match litMatchCh (sym.dropLast.dropLast) t with
    | none => none
    | some r1 =>
      let r2 := munchWS r1
      match litMatchCh [':', ':'] r2 with
      | none => none
      | some r3 => some (consumedOf t r3, r3)
  else if isAlphaSym sym then
    if boundaryBefore prev then
      match litMatchCh sym t with
      | none => none
      | some r => if boundaryAfter r then some (sym, r) else none
    else none
  else
    (litMatchCh sym t).map (fun r => (sym, r))

/-- Try the multi-character symbol alternatives in order (they appear in
the pattern longest-first); first success wins, as in a regex alternation. -/
def matchMulti (syms : List (List Char)) (prev : Option Char) (t : List Char) :
    Option (List Char × List Char) :=
  match syms with
  | [] => none
  | s :: rest =>
    match matchEsc s prev t with
    | some r => some r
    | none => matchMulti rest prev t

/-- Split off a maximal digit run. -/
def takeDigits (t : List Char) : List Char × List Char :=
  (t.takeWhile Char.isDigit, t.dropWhile Char.isDigit)

/-- The optional exponent part `(?:[Ee][+-]?\d+)?` of the number literal
alternative (with regex backtracking: an incomplete exponent is simply not
part of the match). -/
def matchExpPart (t : List Char) : Option (List Char × List Char) :=
  match t with
  | c :: rest =>
    if c = 'e' || c = 'E' then
      let (sgn, rest2) :=
        match rest with
        | s :: r2 => if s = '+' || s = '-' then ([s], r2) else (([] : List Char), rest)
        | [] => (([] : List Char), rest)
      let (ds, rest3) := takeDigits rest2
      if ds.isEmpty then none else some (c :: (sgn ++ ds), rest3)
    else none
  | [] => none

/-- The optional fraction part `(?:\.\d*)?` of the number literal. -/
def matchFracPart (t : List Char) : Option (List Char × List Char) :=
  match t with
  | '.' :: rest =>
    let (ds, r) := takeDigits rest
    some ('.' :: ds, r)
  | _ => none

/-- The number alternative `(?:\d+|\.\d+)(?:\.\d*)?(?:[Ee][+-]?\d+)?`. -/
def matchNumber (t : List Char) : Option (List Char × List Char) :=
  let base : Option (List Char × List Char) :=
    match t with
    | c :: _ =>
      if c.isDigit then
        let (ds, r) := takeDigits t
        some (ds, r)
      else if c = '.' then
        match t with
        | _ :: rest =>
          let (ds, r) := takeDigits rest
          if ds.isEmpty then none else some ('.' :: ds, r)
        | [] => none
      else none
    | [] => none
  match base with
  | none => none
  | some (m1, r1) =>
    let (m2, r2) :=
      match matchFracPart r1 with
      | some (f, rf) => (m1 ++ f, rf)
      | none => (m1, r1)
    match matchExpPart r2 with
    | some (e, re_) => some (m2 ++ e, re_)
    | none => some (m2, r2)

/-- A quoted string literal `'[^']*'` (or with double quotes). -/
def matchQuoted (q : Char) (t : List Char) : Option (List Char × List Char) :=
  match t with
  | c :: rest =>
    if c = q then
      let inner := rest.takeWhile (fun x => x ≠ q)
      let after := rest.dropWhile (fun x => x ≠ q)
      match after with
      | c2 :: rest2 => if c2 = q then some ((q :: inner) ++ [q], rest2) else none
      | [] => none
    else none
  | [] => none

/-- The literal alternative of the tokenizer pattern (quoted strings first,
then numbers, in the source's order). -/
def matchLit (t : List Char) : Option (List Char × List Char) :=
  match matchQuoted '\'' t with
  | some r => some r
  | none =>
    match matchQuoted '"' t with
    | some r => some r
    | none => matchNumber t

/-- Characters allowed inside a name: `[^/\[\]()@=|\s]`. -/
def nameChar (c : Char) : Bool :=
  !(c = '/' || c = '[' || c = ']' || c = '(' || c = ')' || c = '@' || c = '=' ||
    c = '|' || wsChar c)

/-- The name alternative `((?:{[^}]+\})?[^/\[\]()@=|\s]+)`, with the
optional brace-qualified part and the backtracking fallback when the
qualified variant leaves no name characters. -/
def matchName (t : List Char) : Option (List Char × List Char) :=
  let plain : Option (List Char × List Char) :=
    let run := t.takeWhile nameChar
    if run.isEmpty then none else some (run, t.drop run.length)
  match t with
  | c :: rest =>
    if c = lbrace then
      let inner := rest.takeWhile (fun x => x ≠ rbrace)
      let after := rest.dropWhile (fun x => x ≠ rbrace)
      match after, inner with
      | c2 :: rest2, _ :: _ =>
        let run := rest2.takeWhile nameChar
        if run.isEmpty then plain
        else some (((c :: inner) ++ (c2 :: run)), rest2.drop run.length)
      | _, _ => plain
    else plain
  | [] => none

/-- Ordering used to sort registered symbols: longer symbols first
(`sorted(..., key=lambda x: -len(x))`). -/
def symLonger (a b : List Char) : Prop :=
  b.length ≤ a.length

instance : DecidableRel symLonger := fun a b => Nat.decLe b.length a.length

instance : IsTotal (List Char) symLonger :=
  ⟨fun a b => Nat.le_total b.length a.length⟩

instance : IsTrans (List Char) symLonger :=
  ⟨fun _ _ _ h1 h2 => Nat.le_trans h2 h1⟩

/-- `create_tokenizer`'s symbol preprocessing: strip each symbol, discard
blank and empty ones, sort longest-first. -/
def sortSyms (syms : List (List Char)) : List (List Char) :=
  ((syms.map trimWS).filter (fun s => !s.isEmpty)).insertionSort symLonger

/-- The `fence` of `create_tokenizer`: the number of multi-character
symbols; the sorted list is split there into the alternation part and the
single-character class part. -/
def fenceOf (l : List (List Char)) : Nat :=
  (l.filter (fun s => 1 < s.length)).length

/-- The multi-character alternation and single-character class of the
compiled tokenizer. -/
def createTokSyms (syms : List (List Char)) : List (List Char) × List (List Char) :=
  let s := sortSyms syms
  (s.take (fenceOf s), s.drop (fenceOf s))

/-- Membership of a character in the single-character symbol class. -/
def singlesHas (singles : List (List Char)) (c : Char) : Bool :=
  singles.any (fun s => s = [c])

/-- The character preceding the next match position after consuming `m`. -/
def lastCharOf (m : List Char) (prev : Option Char) : Option Char :=
  match m.getLast? with
  | some c => some c
  | none => prev

/-- The scanning loop of `finditer` over the compiled pattern: at each
position try the literal alternative, then the operator alternatives
(multi-character symbols in longest-first order, then the single-character
class), then the name alternative; whitespace and positions where nothing
matches are skipped one character at a time.  Every step consumes at least
one character, so `src.length + 1` fuel always suffices. -/
def scanAux (multi singles : List (List Char)) :
    Nat → Option Char → List Char → List RawTok
  | 0, _, _ => []
  | _, _, [] => []
  | fuel + 1, prev, t@(c :: rest) =>
    match matchLit t with
    | some (m, r) => .lit m :: scanAux multi singles fuel (lastCharOf m prev) r
    | none =>
      match matchMulti multi prev t with
      | some (m, r) => .op m :: scanAux multi singles fuel (lastCharOf m prev) r
      | none =>
        if singlesHas singles c then
          .op [c] :: scanAux multi singles fuel (some c) rest
        else
          match matchName t with
          | some (m, r) => .nm m :: scanAux multi singles fuel (lastCharOf m prev) r
          | none => scanAux multi singles fuel (some c) rest

/-- Tokenize a source with the tokenizer compiled from the registered
symbols (the composition of `create_tokenizer` and `finditer`). -/
def tokenize (syms : List (List Char)) (src : List Char) : List RawTok :=
  let ms := createTokSyms syms
  scanAux ms.1 ms.2 (src.length + 1) none src

/-! ## The Pratt parser engine (`todp_parser.Parser` / `Token`)

A token class registered through the builder combinators carries a left
binding power, a null-denotation behaviour (from the `literal` or `prefix`
combinator, or the default `Token.nud` that raises a syntax error) and a
left-denotation behaviour (from the `infix` or `infixr` combinator, or the
default `Token.led` that raises).  `postfix` is not modelled: its generated
`led` contains a debugger breakpoint (`pdb.set_trace()`) in the source and
no claim exercises it. -/

/-- A parsed token value.  Numeric literal classification keeps the lexical
form for decimals and floats (the claims below never inspect those values);
integers are converted as `int(literal)` is. -/
inductive PValue where
  | strV (s : String)
  | intV (n : Nat)
  | decV (s : String)
  | fltV (s : String)
  deriving DecidableEq, Repr

/-- Rendering of a token value with Python's `%s`. -/
def pvalStr : PValue → String
  | .strV s => s
  | .intV n => toString n
  | .decV s => s
  | .fltV s => s

mutual
/-- A `Token` instance: its class symbol, its value, and its ordered
operand list (`self._operands`). -/
inductive PTok where
  | mk (symbol : String) (value : PValue) (operands : PTokList)

/-- The operand list of a token (a specialised list so that structural
recursion over the token tree stays kernel-reducible). -/
inductive PTokList where
  | nil
  | cons (t : PTok) (ts : PTokList)
end

instance : Inhabited PTok := ⟨.mk "" (.strV "") .nil⟩

/-- The symbol of a token. -/
def PTok.symbol : PTok → String
  | .mk s _ _ => s

/-- The value of a token. -/
def PTok.value : PTok → PValue
  | .mk _ v _ => v

/-- Replace the operand list of a token (the slice assignments
`self[0:] = ...` / `self[0:1] = left, ...` performed by the combinator
behaviours on a fresh token). -/
def PTok.withOperands : PTok → PTokList → PTok
  | .mk s v _, ops => .mk s v ops

mutual
/-- The parenthesized tree rendering `Token.tree`. -/
def PTok.tree : PTok → String
  | .mk _ v ops =>
    match ops with
    | .nil => "(" ++ pvalStr v ++ ")"
    | _ => "(" ++ pvalStr v ++ " " ++ treeJoin ops ++ ")"

/-- `' '.join(item.tree for item in self)`. -/
def treeJoin : PTokList → String
  | .nil => ""
  | .cons t .nil => PTok.tree t
  | .cons t ts => PTok.tree t ++ " " ++ treeJoin ts
end

/-- Null-denotation behaviour attached to a token class. -/
inductive NudB where
  /-- from the `literal` combinator: `nud` returns the token itself -/
  | litNud
  /-- from the `prefix` combinator: `self[0:] = self.parser.expression(rbp=bp),` -/
  | prefNud (bp : Nat)
  /-- the default `Token.nud`: raises a syntax error -/
  | undef
  deriving DecidableEq, Repr

/-- Left-denotation behaviour attached to a token class. -/
inductive LedB where
  /-- from the `infix` combinator: `self[0:1] = left, self.parser.expression(rbp=bp)` -/
  | binL (bp : Nat)
  /-- from the `infixr` combinator: `self[0:1] = left, self.parser.expression(rbp=bp-1)` -/
  | binR (bp : Nat)
  /-- the default `Token.led`: raises a syntax error -/
  | undef
  deriving DecidableEq, Repr

/-- A registered token class: the record held in `Parser.symbol_table`. -/
structure SymClass where
  lbp : Nat
  nud : NudB
  led : LedB
  deriving Repr

/-- The symbol table of a parser class. -/
abbrev SymTable := List (String × SymClass)

/-- Errors raised by the parser.  `outOfFuel` is an artefact of the
embedding; the remaining constructors correspond to the source's
exceptions (message formatting is not modelled). -/
inductive PErr where
  /-- `advance` on an `(end)` lookahead: "Unexpected end of source" -/
  | unexpectedEndOfSource
  /-- `Token.wrong_symbol`: "unexpected token" (from `expected`/`unexpected`
  checks and the default `nud`/`led`) -/
  | unexpectedToken (symbol : String)
  /-- `advance`'s `KeyError` handler: "unknown operator" -/
  | unknownOperator (text : String)
  /-- an uncaught `KeyError` for an unregistered literal/name token class -/
  | missingTokenClass (symbol : String)
  /-- `nud` called on a `None` lookahead (unreachable from `parse`) -/
  | noneTypeError
  | outOfFuel
  deriving DecidableEq, Repr

/-- The mutable token-stream state of a `Parser` instance: the lookahead
`next_token` and the remaining raw matches of `self.tokens`.  (`self.token`
and `self.match` only feed error-message formatting and are not tracked.) -/
structure PState where
  next : Option PTok
  stream : List RawTok

/-- `int(literal)` for a digit run. -/
def natOfDigits (cs : List Char) : Nat :=
  cs.foldl (fun n c => n * 10 + (c.toNat - 48)) 0

/-- `literal.strip("'\"")`. -/
def stripQuotes (cs : List Char) : List Char :=
  let isQ : Char → Bool := fun c => c = '\'' || c = '"'
  ((cs.dropWhile isQ).reverse.dropWhile isQ).reverse

/-- The `(end)` sentinel token. -/
def endTok : PTok := .mk "(end)" (.strV "(end)") .nil

/-- Classification of a raw match into a concrete token, as done by the
body of `advance`'s stream loop: operators are looked up by their symbol
with blanks removed (an unknown operator is a syntax error); literals are
classified as string / float / decimal / integer by their lexical markers;
names become `(name)` tokens.  A literal or name whose sentinel class is
not registered raises an uncaught `KeyError`. -/
def classify (tbl : SymTable) : RawTok → Except PErr PTok
  | .op cs =>
    let key := String.mk (cs.filter (fun c => c ≠ ' '))
    match tbl.lookup key with
    | some _ => .ok (.mk key (.strV key) .nil)
    | none => .error (.unknownOperator (String.mk cs))
  | .lit cs =>
    match cs with
    | c :: _ =>
      if c = '\'' || c = '"' then
        match tbl.lookup "(string)" with
        | some _ => .ok (.mk "(string)" (.strV (String.mk (stripQuotes cs))) .nil)
        | none => .error (.missingTokenClass "(string)")
      else if cs.any (fun x => x = 'e' || x = 'E') then
        match tbl.lookup "(float)" with
        | some _ => .ok (.mk "(float)" (.fltV (String.mk cs)) .nil)
        | none => .error (.missingTokenClass "(float)")
      else if cs.contains '.' then
        match tbl.lookup "(decimal)" with
        | some _ => .ok (.mk "(decimal)" (.decV (String.mk cs)) .nil)
        | none => .error (.missingTokenClass "(decimal)")
      else
        match tbl.lookup "(integer)" with
        | some _ => .ok (.mk "(integer)" (.intV (natOfDigits cs)) .nil)
        | none => .error (.missingTokenClass "(integer)")
    | [] => .error (.missingTokenClass "(integer)")
  | .nm cs =>
    match tbl.lookup "(name)" with
    | some _ => .ok (.mk "(name)" (.strV (String.mk cs)) .nil)
    | none => .error (.missingTokenClass "(name)")

/-- The left binding power of a token (`self.next_token.lbp`), read from
its registered class. -/
def getLbp (tbl : SymTable) (t : PTok) : Nat :=
  match tbl.lookup t.symbol with
  | some cls => cls.lbp
  | none => 0

/-- `Parser.advance`: raise on an `(end)` lookahead, validate the lookahead
against the expected symbols when given, then shift: the lookahead becomes
the current token and the next raw match is classified into the new
lookahead (the `(end)` token once the stream is exhausted). -/
def advanceP (tbl : SymTable) (expected : List String) (st : PState) :
    Except PErr PState :=
  let pop : Except PErr PState :=
    match st.stream with
    | [] => .ok ⟨some endTok, []⟩
    | r :: rest =>
      match classify tbl r with
      | .ok tok => .ok ⟨some tok, rest⟩
      | .error e => .error e
  match st.next with
  | some t =>
    if t.symbol = "(end)" then .error .unexpectedEndOfSource
    else if !expected.isEmpty && !expected.contains t.symbol then
      .error (.unexpectedToken t.symbol)
    else pop
  | none => pop

mutual
/-- `Parser.expression(rbp)`: take the lookahead token, advance, invoke its
null denotation to obtain a left operand, then enter the binding-power
loop.  The combinator-generated `nud` behaviours are inlined: `literal`
returns the token, `prefix` recurses into `expression(bp)` for one
operand, and the default raises a syntax error. -/
def exprP (tbl : SymTable) : Nat → Nat → PState → Except PErr (PTok × PState)
  | 0, _, _ => .error .outOfFuel
  | fuel + 1, rbp, st =>
    match st.next with
    | none => .error .noneTypeError
    | some t =>
      match advanceP tbl [] st with
      | .error e => .error e
      | .ok st1 =>
        match tbl.lookup t.symbol with
        | none => .error (.unexpectedToken t.symbol)
        | some cls =>
          match cls.nud with
          | .litNud => exprLoop tbl fuel rbp t st1
          | .prefNud bp =>
            match exprP tbl fuel bp st1 with
            | .error e => .error e
            | .ok (operand, st2) =>
              exprLoop tbl fuel rbp (t.withOperands (.cons operand .nil)) st2
          | .undef => .error (.unexpectedToken t.symbol)

/-- The `while rbp < self.next_token.lbp` loop of `expression`: while the
lookahead's left binding power exceeds `rbp`, advance and invoke the
taken token's left denotation on the current left operand.  The
combinator-generated `led` behaviours are inlined: `infix` recurses with
`expression(bp)`, `infixr` with `expression(bp-1)`, and the default raises
a syntax error. -/
def exprLoop (tbl : SymTable) : Nat → Nat → PTok → PState → Except PErr (PTok × PState)
  | 0, _, _, _ => .error .outOfFuel
  | fuel + 1, rbp, left, st =>
    match st.next with
    | none => .ok (left, st)
    | some t =>
      if rbp < getLbp tbl t then
        match advanceP tbl [] st with
        | .error e => .error e
        | .ok st1 =>
          match tbl.lookup t.symbol with
          | none => .error (.unexpectedToken t.symbol)
          | some cls =>
            match cls.led with
            | .binL bp =>
              match exprP tbl fuel bp st1 with
              | .error e => .error e
              | .ok (right, st2) =>
                exprLoop tbl fuel rbp (t.withOperands (.cons left (.cons right .nil))) st2
            | .binR bp =>
              match exprP tbl fuel (bp - 1) st1 with
              | .error e => .error e
              | .ok (right, st2) =>
                exprLoop tbl fuel rbp (t.withOperands (.cons left (.cons right .nil))) st2
            | .undef => .error (.unexpectedToken t.symbol)
      else .ok (left, st)
end

/-- Python `str.strip()` on a string. -/
def strTrim (s : String) : String :=
  String.mk (trimWS s.toList)

/-- The tokenizer symbols of a parser class: every symbol-table key except
the sentinel classes (`Parser.end`). -/
def tokSymsOf (tbl : SymTable) : List (List Char) :=
  (tbl.map Prod.fst).filterMap (fun s =>
    if strTrim s = "(end)" || strTrim s = "(name)" || strTrim s = "(string)" ||
       strTrim s = "(float)" || strTrim s = "(decimal)" || strTrim s = "(integer)" then none
    else some s.toList)

/-- The body of `Parser.parse` before the final sentinel check: install the
fresh token stream into the entry state (keeping the entry lookahead, which
`parse` does not reset), prime the lookahead with one `advance`, and parse
one top-level expression. -/
def parsePhaseFrom (tbl : SymTable) (fuel : Nat) (entry : PState) (src : String) :
    Except PErr (PTok × PState) :=
  let st0 : PState := ⟨entry.next, tokenize (tokSymsOf tbl) src.toList⟩
  match advanceP tbl [] st0 with
  | .error e => .error e
  | .ok st1 => exprP tbl fuel 0 st1

/-- The result of `Parser.parse` from a given entry state: the parsed
expression provided the lookahead is then exactly the `(end)` sentinel;
trailing unconsumed input raises via `self.next_token.unexpected()`. -/
def parseResultFrom (tbl : SymTable) (fuel : Nat) (entry : PState) (src : String) :
    Except PErr PTok :=
  match parsePhaseFrom tbl fuel entry src with
  | .error e => .error e
  | .ok (root, st2) =>
    match st2.next with
    | some t => if t.symbol = "(end)" then .ok root else .error (.unexpectedToken t.symbol)
    | none => .error .noneTypeError

/-- `Parser.parse` including its `finally` clause, which unconditionally
clears the token stream (`self.tokens = iter(())`) and the lookahead
(`self.next_token = None`) whether parsing returned or raised. -/
def parseFrom (tbl : SymTable) (fuel : Nat) (entry : PState) (src : String) :
    Except PErr PTok × PState :=
  (parseResultFrom tbl fuel entry src, ⟨none, []⟩)

/-- `Parser.parse` called on a freshly initialised parser
(`self.next_token = None`, empty stream). -/
def parseCore (tbl : SymTable) (fuel : Nat) (src : String) : Except PErr PTok :=
  (parseFrom tbl fuel ⟨none, []⟩ src).1

/-! ## The tree data model (`xpath_nodes.py`)

Raw ElementTree elements are modelled by `Elem`; the tag of a comment or
processing-instruction element is a callable factory function, modelled by
the `ETag` variants.  `Elem` and its child list are a mutual inductive so
that structural recursion over raw trees stays kernel-reducible. -/

/-- The tag of an etree element: a string, or one of the callable
factories (`Comment`, `ProcessingInstruction`). -/
inductive ETag where
  | named (s : String)
  | commentFn
  | piFn
  deriving DecidableEq, Repr

/-- Python `callable(elem.tag)`. -/
def ETag.isCallable : ETag → Bool
  | .named _ => false
  | _ => true

mutual
/-- A raw ElementTree element: tag, attributes, text, tail and children. -/
inductive Elem where
  | mk (tag : ETag) (attrib : List (String × String)) (text : Option String)
       (tail : Option String) (children : ElemList)

/-- The child list of a raw element. -/
inductive ElemList where
  | enil
  | econs (e : Elem) (es : ElemList)
end

/-- The tag of a raw element. -/
def Elem.tag : Elem → ETag
  | .mk t _ _ _ _ => t

/-- The attribute dictionary of a raw element (as an ordered list). -/
def Elem.attrib : Elem → List (String × String)
  | .mk _ a _ _ _ => a

/-- The text of a raw element. -/
def Elem.text : Elem → Option String
  | .mk _ _ x _ _ => x

/-- The tail of a raw element. -/
def Elem.tail : Elem → Option String
  | .mk _ _ _ l _ => l

/-- The children of a raw element. -/
def Elem.children : Elem → ElemList
  | .mk _ _ _ _ c => c

/-- Conversion of a child list to an ordinary list. -/
def ElemList.toList : ElemList → List Elem
  | .enil => []
  | .econs e es => e :: es.toList

mutual
/-- Structural equality of raw elements (standing in for Python object
identity in dictionary lookups and `is` comparisons; distinct but
structurally equal elements are identified, which no theorem below
depends on). -/
def elemBEq : Elem → Elem → Bool
  | .mk t1 a1 x1 l1 c1, .mk t2 a2 x2 l2 c2 =>
    t1 == t2 && a1 == a2 && x1 == x2 && l1 == l2 && elemListBEq c1 c2

/-- Structural equality of child lists. -/
def elemListBEq : ElemList → ElemList → Bool
  | .enil, .enil => true
  | .econs e es, .econs f fs => elemBEq e f && elemListBEq es fs
  | .enil, .econs _ _ => false
  | .econs _ _, .enil => false
end

/-- Raw-subtree iteration in document order (`elem.iter()` of ElementTree).
Fuel-driven; any fuel above the subtree size is enough. -/
def etreeIter (fuel : Nat) (e : Elem) : List Elem :=
  match fuel with
  | 0 => []
  | f + 1 => e :: e.children.toList.flatMap (etreeIter f)

/-- A Python object of the dynamic context universe: `None`, numbers,
strings, the context instance itself, raw etree elements and documents,
`XPathNode` instances (by index into the node arena of the context),
atomic values, and any other object. -/
inductive PyObj where
  | noneV
  | intV (n : Nat)
  | strV (s : String)
  | ctxV
  | elemV (e : Elem)
  | docV (rootElem : Elem)
  | nodeV (i : Nat)
  | atomicV (n : Nat)
  | otherV
  deriving Inhabited

/-- Structural equality of context objects (Python `==`/`is`/dict lookup
on the objects circulating through the context; see `elemBEq`). -/
def pyBEq : PyObj → PyObj → Bool
  | .noneV, .noneV => true
  | .intV a, .intV b => a == b
  | .strV a, .strV b => a == b
  | .ctxV, .ctxV => true
  | .elemV a, .elemV b => elemBEq a b
  | .docV a, .docV b => elemBEq a b
  | .nodeV a, .nodeV b => a == b
  | .atomicV a, .atomicV b => a == b
  | .otherV, .otherV => true
  | _, _ => false

/-- The node kinds of the XPath data model. -/
inductive NKind where
  | document
  | element
  | attributeN
  | namespaceN
  | textN
  | commentN
  | piN
  deriving DecidableEq, Repr

/-- An `XPathNode` instance, by its slots (`xpath_nodes.py`): the classes
define `parent` and `position` on the base class plus kind-specific slots
(`elem`/`document`/`value`, `children`, `nsmap`, and the two lazy caches of
element nodes).  None of the classes defines a `context` or `index`
attribute; accessing those raises `AttributeError`. -/
structure ANode where
  kind : NKind
  /-- the `elem` / `document` / `value`-bearing slot -/
  elemF : PyObj := .noneV
  /-- the `parent` slot (`.noneV` for Python `None`) -/
  parentF : PyObj := .noneV
  /-- the `position` slot (an `int` only when the caller passes one) -/
  position : PyObj := .intV 1
  /-- `children` (element and document nodes) -/
  children : List Nat := []
  /-- `nsmap` (element nodes) -/
  nsmap : List (Option String × String) := []
  /-- the `_namespace_nodes` lazy cache (element nodes) -/
  nsCache : Option (List Nat) := none
  /-- the `_attributes` lazy cache (element nodes) -/
  attrCache : Option (List Nat) := none
  /-- `_name` of attribute nodes / `prefix` of namespace nodes -/
  nameF : String := ""
  /-- the `value` slot of attribute and text nodes -/
  valueF : PyObj := .noneV

instance : Inhabited ANode := ⟨{ kind := .element }⟩

/-- Arena access (Python object references to nodes are arena indices). -/
def getN (arena : List ANode) (i : Nat) : ANode :=
  arena.getD i default

/-! ### `XPathContext._build_nodes` (`xpath_context.py`, lines 317-365)

The build walks the raw tree with an explicit stack.  Crucially, it
constructs nodes as `ElementNode(self, elem, parent)` where `self` is the
context — but the `xpath_nodes.py` constructors in this tree take
`(elem, parent=None, position=1, nsmap=None, ...)`.  The actual binding is
therefore: `elem` ← the context, `parent` ← the raw element, `position` ←
the parent node object (or the default `1` for the root, or the raw
document for the document node).  The fields below record exactly that
binding.  `nsmap` comes from `getattr(elem, 'nsmap')` with `elem` bound to
the context, which has no such attribute, so it falls back to `{}`. -/

/-- Errors raised during tree construction. -/
inductive BErr where
  /-- `TextNode(self, elem.tail, parent, tail=True)`: `TextNode.__init__`
  has no `tail` parameter, so any element with a tail raises `TypeError` -/
  | typeErrorTail
  /-- `parent = child` with `child` unbound (document without an element
  root under the spec-modelled `etree_iter_root`) -/
  | nameErrorUnbound
  | outOfFuelB
  deriving DecidableEq, Repr

/-- The node created for a discovered child of the build walk:
`ElementNode(self, elem, parent)` / `CommentNode(self, elem, parent)` /
`ProcessingInstructionNode(self, elem, parent)` with the argument binding
described above (`position` receives the parent node object). -/
def mkChildNode (e : Elem) (parentIdx : Nat) : ANode :=
  { kind :=
      match e.tag with
      | .named _ => .element
      | .commentFn => .commentN
      | .piFn => .piN
    elemF := .ctxV
    parentF := .elemV e
    position := .nodeV parentIdx }

/-- Append a child index to the `children` list of the node at `p`. -/
def appendChildTo (arena : List ANode) (p c : Nat) : List ANode :=
  arena.set p { getN arena p with children := (getN arena p).children ++ [c] }

/-- The state of the build walk: the arena so far, the current child
iterator and parent, and the two explicit stacks. -/
structure BState where
  arena : List ANode
  children : List Elem
  parentIdx : Nat
  iterStack : List (List Elem)
  ancStack : List Nat

/-- The main loop of `_build_nodes`: take the next child from the current
iterator (popping the stacks when it is exhausted, returning the arena when
they are empty); append the discovered node to its parent's child list;
`TextNode(self, elem.tail, parent, tail=True)` raises `TypeError` whenever
the element has a tail; descend into non-empty elements. -/
def buildAux : Nat → BState → Except BErr (List ANode)
  | 0, _ => .error .outOfFuelB
  | fuel + 1, s =>
    match s.children with
    | [] =>
      match s.iterStack, s.ancStack with
      | it :: its, a :: as_ =>
        buildAux fuel { s with children := it, parentIdx := a, iterStack := its, ancStack := as_ }
      | _, _ => .ok s.arena
    | e :: rest =>
      let childIdx := s.arena.length
      let arena1 := appendChildTo (s.arena ++ [mkChildNode e s.parentIdx]) s.parentIdx childIdx
      if e.tail ≠ none then .error .typeErrorTail
      else if !e.children.toList.isEmpty then
        buildAux fuel { arena := arena1, children := e.children.toList, parentIdx := childIdx,
                        iterStack := rest :: s.iterStack, ancStack := s.parentIdx :: s.ancStack }
      else
        buildAux fuel { s with arena := arena1, children := rest }

/-- The root argument of a context: a raw element or a raw document. -/
inductive BRoot where
  | elemR (e : Elem)
  | docR (rootElem : Elem)

/-- `XPathContext._build_nodes`.  Element case: the root node is
`ElementNode(self, root)` — `elem` ← context, `parent` ← the raw root,
`position` ← the default `1`.  Document case: the document node is
`DocumentNode(self, document)` — `document` ← context, `position` ← the raw
document; the root element (from the spec-modelled `etree_iter_root`, which
yields the document's root element) becomes its child, and the walk
continues from it. -/
def buildNodes (fuel : Nat) : BRoot → Except BErr (List ANode)
  | .elemR root =>
    let rootNode : ANode :=
      { kind := .element, elemF := .ctxV, parentF := .elemV root, position := .intV 1 }
    buildAux fuel ⟨[rootNode], root.children.toList, 0, [], []⟩
  | .docR root =>
    let docNode : ANode :=
      { kind := .document, elemF := .ctxV, parentF := .noneV, position := .docV root }
    match root.tag with
    | .named _ =>
      let rootElemNode := mkChildNode root 0
      buildAux fuel ⟨appendChildTo [docNode, rootElemNode] 0 1, root.children.toList, 1, [], []⟩
    | _ => .error .nameErrorUnbound

/-! ### Lazy namespace and attribute nodes of an element
(`ElementNode.namespace_nodes` / `ElementNode.attributes`,
`xpath_nodes.py` lines 519-542)

The properties are embedded as the pure functions they compute on first
access, over an element with integer position `p`, namespace map `nsmap`
and attribute dictionary `attrib` (the constructor accepts these directly;
the lazy caching itself is a Python-level memoisation detail). -/

/-- A namespace node as produced by `namespace_nodes`. -/
structure NsNode where
  pfx : Option String
  uri : String
  position : Nat
  deriving DecidableEq, Repr

/-- An attribute node as produced by `attributes`. -/
structure AttrNode where
  name : String
  value : String
  position : Nat
  deriving DecidableEq, Repr

/-- The URI of the implicit `xml` namespace node. -/
def xmlNamespaceURI : String := "http://www.w3.org/XML/1998/namespace"

/-- The loop of `namespace_nodes`: non-`xml` entries of `nsmap` at
consecutive positions (skipping an explicit `xml` entry without advancing
the counter). -/
def nsLoop (pos : Nat) : List (Option String × String) → List NsNode
  | [] => []
  | (pfx, uri) :: rest =>
    if pfx = some "xml" then nsLoop pos rest
    else ⟨pfx, uri, pos⟩ :: nsLoop (pos + 1) rest

/-- `ElementNode.namespace_nodes`: the implicit `xml` namespace node at
`position + 1`, then the non-`xml` entries of `nsmap` from `position + 2`. -/
def namespaceNodesOf (p : Nat) (nsmap : List (Option String × String)) : List NsNode :=
  ⟨some "xml", xmlNamespaceURI, p + 1⟩ :: nsLoop (p + 2) nsmap

/-- `ElementNode.attributes`: attribute nodes at consecutive positions
starting from `position + len(nsmap) + int('xml' not in nsmap)`. -/
def attributesOf (p : Nat) (nsmap : List (Option String × String))
    (attrib : List (String × String)) : List AttrNode :=
  let start := p + nsmap.length + (if nsmap.all (fun kv => kv.1 ≠ some "xml") then 1 else 0)
  attrib.enum.map (fun iv => ⟨iv.2.1, iv.2.2, start + iv.1⟩)

/-- The number of non-`xml` entries of a namespace map. -/
def nonXmlCount (nsmap : List (Option String × String)) : Nat :=
  (nsmap.filter (fun kv => kv.1 ≠ some "xml")).length

/-! ## The dynamic context (`xpath_context.py`)

The mutable state of an `XPathContext`: the node arena of the constructed
tree, the root reference, the focus (`item`, `position`, `size`, `axis`)
and the variable bindings.  Exceptions raised inside iterators are
modelled with `Except`; a Python generator that raises never completes, so
such runs carry no "fully drained" observation. -/

/-- Runtime errors of the context machinery.  `outOfFuelC` is an artefact
of the embedding (it also stands in for Python-level divergence). -/
inductive PyErr where
  | attributeError (attr : String)
  | typeError
  | runtimeError
  | outOfFuelC
  deriving DecidableEq, Repr

/-- The `XPathContext` state.  `documents`, `collections` and the
time-related fields play no role in the claims below and are omitted. -/
structure Ctx where
  arena : List ANode
  root : PyObj
  item : PyObj
  position : PyObj
  size : PyObj
  axis : Option String
  varBindings : List (String × PyObj)

/-- The focus quadruple `(item, position, size, axis)` of a context. -/
def focusOf (c : Ctx) : PyObj × PyObj × PyObj × Option String :=
  (c.item, c.position, c.size, c.axis)

/-- `isinstance(x, <node class of kind k>)` for arena references. -/
def kindOf (c : Ctx) (x : PyObj) : Option NKind :=
  match x with
  | .nodeV i => some (getN c.arena i).kind
  | _ => none

/-- Attribute access `x.tag`: only raw etree elements expose a `tag`
(the node classes of this `xpath_nodes.py` define `name`, not `tag`, and
documents have none either); anything else raises `AttributeError`. -/
def tagOf : PyObj → Except PyErr ETag
  | .elemV e => .ok e.tag
  | _ => .error (.attributeError "tag")

/-- Attribute access `x.tail` (raw etree elements only). -/
def tailOf : PyObj → Except PyErr (Option String)
  | .elemV e => .ok e.tail
  | _ => .error (.attributeError "tail")

/-- Modelled from the spec: `is_etree_element` (imported from the missing
`etree` helper module) — an object with an etree `tag` attribute. -/
def isEtreeElement : PyObj → Bool
  | .elemV _ => true
  | _ => false

/-- Modelled from the spec: `is_element_node` (imported from
`xpath_nodes`, which does not define it in this tree) — element nodes are
`ElementNode` instances and etree elements whose tag is not callable
(comments and processing instructions excluded). -/
def isElementNode (c : Ctx) (x : PyObj) : Bool :=
  kindOf c x = some NKind.element ||
    (match x with
     | .elemV e => !e.tag.isCallable
     | _ => false)

/-- Modelled from the spec: `is_document_node` — document nodes are raw
ElementTree documents and `DocumentNode` instances (both expose
`getroot`). -/
def isDocumentNode (c : Ctx) (x : PyObj) : Bool :=
  (match x with
   | .docV _ => true
   | _ => false) || kindOf c x = some NKind.document

/-- Modelled from the spec: `etree_iter_root` (from the missing `etree`
helper module) — yields the root element itself (together with sibling
comments and processing instructions for lxml trees, which the plain model
does not have); on an object without a `tag` it raises `AttributeError`. -/
def etreeIterRoot : PyObj → Except PyErr (List PyObj)
  | .elemV e => .ok [.elemV e]
  | _ => .error (.attributeError "tag")

/-- `for child in x`: element and document nodes iterate their children;
raw etree elements iterate theirs; everything else raises `TypeError`
(text, comment, attribute and namespace nodes define no iteration). -/
def iterPyChildren (c : Ctx) (x : PyObj) : Except PyErr (List PyObj) :=
  match x with
  | .nodeV i =>
    match (getN c.arena i).kind with
    | .element | .document => .ok ((getN c.arena i).children.map PyObj.nodeV)
    | _ => .error .typeError
  | .elemV e => .ok (e.children.toList.map PyObj.elemV)
  | _ => .error .typeError

/-- The cached namespace/attribute yields of `ElementNode.iter`
(`if child._namespace_nodes: yield from ...` — skipped when the lazy cache
is unset or empty). -/
def cacheYields (n : ANode) : List PyObj :=
  (n.nsCache.getD []).map PyObj.nodeV ++ (n.attrCache.getD []).map PyObj.nodeV

/-- The explicit-stack walk of `ElementNode.iter_descendants`: yield each
child, descending into element children with children of their own. -/
def elemIterDescAux (arena : List ANode) : Nat → List Nat → List (List Nat) → List PyObj
  | 0, _, _ => []
  | fuel + 1, [], its =>
    match its with
    | [] => []
    | it :: its' => elemIterDescAux arena fuel it its'
  | fuel + 1, idx :: rest, its =>
    let n := getN arena idx
    if n.kind = NKind.element && !n.children.isEmpty then
      PyObj.nodeV idx :: elemIterDescAux arena fuel n.children (rest :: its)
    else
      PyObj.nodeV idx :: elemIterDescAux arena fuel rest its

/-- `ElementNode.iter_descendants(with_self)`. -/
def elemIterDesc (arena : List ANode) (fuel : Nat) (i : Nat) (withSelf : Bool) : List PyObj :=
  (if withSelf then [PyObj.nodeV i] else []) ++ elemIterDescAux arena fuel (getN arena i).children []

/-- `iter_descendants(with_self)` of element and document nodes
(`DocumentNode.iter_descendants` yields itself, then each element child's
full descendant walk and each non-element child as is).  Other node
classes define no `iter_descendants`; callers guard with `isinstance`. -/
def nodeIterDescendants (arena : List ANode) (fuel : Nat) (i : Nat) (withSelf : Bool) :
    List PyObj :=
  let n := getN arena i
  match n.kind with
  | .element => elemIterDesc arena fuel i withSelf
  | .document =>
    (if withSelf then [PyObj.nodeV i] else []) ++
      n.children.flatMap (fun idx =>
        if (getN arena idx).kind = NKind.element then elemIterDesc arena fuel idx true
        else [PyObj.nodeV idx])
  | _ => []

/-- The explicit-stack walk of `ElementNode.iter`: like the descendant
walk but also yielding each element's materialised namespace/attribute
caches. -/
def elemIterFullAux (arena : List ANode) : Nat → List Nat → List (List Nat) → List PyObj
  | 0, _, _ => []
  | fuel + 1, [], its =>
    match its with
    | [] => []
    | it :: its' => elemIterFullAux arena fuel it its'
  | fuel + 1, idx :: rest, its =>
    let n := getN arena idx
    if n.kind = NKind.element then
      (PyObj.nodeV idx :: cacheYields n) ++
        (if !n.children.isEmpty then elemIterFullAux arena fuel n.children (rest :: its)
         else elemIterFullAux arena fuel rest its)
    else
      PyObj.nodeV idx :: elemIterFullAux arena fuel rest its

/-- `ElementNode.iter` from node `i`. -/
def elemIterFull (arena : List ANode) (fuel : Nat) (i : Nat) : List PyObj :=
  (PyObj.nodeV i :: cacheYields (getN arena i)) ++
    elemIterFullAux arena fuel (getN arena i).children []

/-- `x.iter()` on a node: element and document nodes define it; the other
node classes do not (`AttributeError`). -/
def nodeIterFull (arena : List ANode) (fuel : Nat) (i : Nat) : Except PyErr (List PyObj) :=
  let n := getN arena i
  match n.kind with
  | .element => .ok (elemIterFull arena fuel i)
  | .document =>
    .ok (PyObj.nodeV i :: n.children.flatMap (fun idx =>
      if (getN arena idx).kind = NKind.element then elemIterFull arena fuel idx
      else [PyObj.nodeV idx]))
  | _ => .error (.attributeError "iter")

/-- `XPathContext.iter`: `yield from self.root.iter()`. -/
def ctxIter (fuel : Nat) (c : Ctx) : Except PyErr (List PyObj) :=
  match c.root with
  | .nodeV r => nodeIterFull c.arena fuel r
  | .elemV e => .ok ((etreeIter fuel e).map PyObj.elemV)
  | .docV d => .ok ((etreeIter fuel d).map PyObj.elemV)
  | _ => .error (.attributeError "iter")

/-- `DocumentNode.getroot`: the first element child, or `RuntimeError`. -/
def docGetroot (c : Ctx) (i : Nat) : Except PyErr PyObj :=
  match (getN c.arena i).children.find? (fun idx => (getN c.arena idx).kind = NKind.element) with
  | some idx => .ok (.nodeV idx)
  | none => .error .runtimeError

/-- `{child: elem for elem in elems for child in elem}`: parent pairs from
a container iteration (raising `TypeError` on non-iterable entries, as the
dict comprehension does). -/
def pairsOfContainer (c : Ctx) (elems : List PyObj) :
    Except PyErr (List (PyObj × PyObj)) :=
  match elems with
  | [] => .ok []
  | e :: rest =>
    match iterPyChildren c e with
    | .error er => .error er
    | .ok kids =>
      match pairsOfContainer c rest with
      | .error er => .error er
      | .ok prs => .ok (kids.map (fun k => (k, e)) ++ prs)

/-- The variable part of the `parent_map` property: for each bound value,
document nodes contribute their subtree's pairs plus a root mapping,
element nodes contribute the pairs of `v.elem.iter()` (`v.elem` is the
context for nodes of the broken build) or of the raw element's subtree. -/
def parentMapVars (c : Ctx) (fuel : Nat) (rootPairs : List (PyObj × PyObj)) :
    List (String × PyObj) → Except PyErr (List (PyObj × PyObj))
  | [] => .ok rootPairs
  | (_, v) :: rest =>
    let step : Except PyErr (List (PyObj × PyObj)) :=
      if isDocumentNode c v then
        match v with
        | .docV d =>
          match pairsOfContainer c ((etreeIter fuel d).map PyObj.elemV) with
          | .error er => .error er
          | .ok prs => .ok (rootPairs ++ prs ++ [(.elemV d, v)])
        | .nodeV i =>
          match nodeIterFull c.arena fuel i with
          | .error er => .error er
          | .ok elems =>
            match pairsOfContainer c elems with
            | .error er => .error er
            | .ok prs =>
              match docGetroot c i with
              | .error er => .error er
              | .ok gr => .ok (rootPairs ++ prs ++ [(gr, v)])
        | _ => .ok rootPairs
      else if isElementNode c v then
        let rootObj : PyObj :=
          match v with
          | .nodeV i => (getN c.arena i).elemF
          | _ => v
        match rootObj with
        | .ctxV =>
          match ctxIter fuel c with
          | .error er => .error er
          | .ok elems =>
            match pairsOfContainer c elems with
            | .error er => .error er
            | .ok prs => .ok (rootPairs ++ prs)
        | .elemV e =>
          match pairsOfContainer c ((etreeIter fuel e).map PyObj.elemV) with
          | .error er => .error er
          | .ok prs => .ok (rootPairs ++ prs)
        | _ => .error (.attributeError "iter")
      else .ok rootPairs
    match step with
    | .error er => .error er
    | .ok acc => parentMapVars c fuel acc rest

/-- The `parent_map` property: pairs from `self.root.value.iter()` (the
`value` of a built root node is the context object, so this iterates the
node tree), the document-root mapping (which raises on the context
object), and the variable contributions.  The property caches its result;
since the tree is immutable the recomputation here is observationally the
same. -/
def buildParentMap (c : Ctx) (fuel : Nat) : Except PyErr (List (PyObj × PyObj)) :=
  match c.root with
  | .nodeV r =>
    let rootVal := (getN c.arena r).elemF
    let elemsRes : Except PyErr (List PyObj) :=
      match rootVal with
      | .ctxV => ctxIter fuel c
      | .elemV e => .ok ((etreeIter fuel e).map PyObj.elemV)
      | .docV d => .ok ((etreeIter fuel d).map PyObj.elemV)
      | _ => .error (.attributeError "iter")
    match elemsRes with
    | .error er => .error er
    | .ok elems =>
      match pairsOfContainer c elems with
      | .error er => .error er
      | .ok base =>
        let base2 : Except PyErr (List (PyObj × PyObj)) :=
          if (getN c.arena r).kind = NKind.document then
            match rootVal with
            | .docV d => .ok (base ++ [(.elemV d, c.root)])
            | _ => .error (.attributeError "getroot")
          else .ok base
        match base2 with
        | .error er => .error er
        | .ok b => parentMapVars c fuel b c.varBindings
  | _ => .error (.attributeError "value")

/-- `XPathContext.get_parent`: `XPathNode` instances answer from their
`parent` slot; anything else goes through the parent map, a `KeyError`
falling back to `getparent()` which plain etree objects do not have —
yielding `None`. -/
def getParent (c : Ctx) (fuel : Nat) (x : PyObj) : Except PyErr PyObj :=
  match x with
  | .nodeV i => .ok (getN c.arena i).parentF
  | _ =>
    match buildParentMap c fuel with
    | .error er => .error er
    | .ok pm =>
      match pm.find? (fun kv => pyBEq kv.1 x) with
      | some kv => .ok kv.2
      | none => .ok .noneV

/-! ## The axis iterators (`xpath_context.py`, lines 513-864)

Each iterator is modelled as a function from the context state to the
sequence it yields when it runs to completion, together with the final
context state; an exception raised mid-iteration is an `Except.error` (the
generator then never completes).  The source convention — save the focus
fields touched, mutate them while yielding, restore the saved values at
the end — is mirrored by explicit record updates. -/

/-- The `for self.item in ...: yield` loops: assign each yielded value to
the context item in turn. -/
def assignItems (c : Ctx) (ys : List PyObj) : Ctx :=
  ys.foldl (fun a y => { a with item := y }) c

/-- `for self.position, self.item in enumerate(results, start=1)`. -/
def assignEnum (c : Ctx) (ys : List PyObj) : Ctx :=
  (ys.foldl (fun p y => (p.1 + 1, { p.2 with item := y, position := PyObj.intV p.1 }))
    (1, c)).2

/-- Python `self.position -= 1` on the position slot. -/
def pyDec : PyObj → PyObj
  | .intV n => .intV (n - 1)
  | x => x

/-- The reverse-axis loop of `inner_focus_select`: assign the item, yield,
then decrement the position. -/
def assignRev (c : Ctx) (ys : List PyObj) : Ctx :=
  ys.foldl (fun a y => { a with item := y, position := pyDec a.position }) c

/-- `XPathContext.iter_self` (lines 513-518): set the axis to `self`,
yield the item, restore the axis. -/
def iterSelf (c : Ctx) : Except PyErr (List PyObj × Ctx) :=
  let status := c.axis
  let c1 := { c with axis := some "self" }
  .ok ([c1.item], { c1 with axis := status })

/-- `XPathContext.iter_attributes` (lines 520-554).  An attribute item is
yielded back under the `attribute` axis.  An `ElementNode` item reaches
`self.item.context`, which the node classes of this tree do not define:
`AttributeError`.  Anything that is not an element node returns.  The
legacy branch (raw etree element item) builds
`AttributeNode(self, x[0], x[1], parent=elem)` per attribute, which passes
`parent` twice: `TypeError` on the first attribute; with no attributes the
loop completes and the focus is restored. -/
def iterAttributes (c : Ctx) : Except PyErr (List PyObj × Ctx) :=
  match kindOf c c.item with
  | some .attributeN =>
    let status := c.axis
    let c1 := { c with axis := some "attribute" }
    .ok ([c1.item], { c1 with axis := status })
  | some .element => .error (.attributeError "context")
  | _ =>
    if !isElementNode c c.item then .ok ([], c)
    else
      let status := (c.item, c.axis)
      let c1 := { c with axis := some "attribute" }
      match c1.item with
      | .elemV e =>
        if e.attrib.isEmpty then .ok ([], { c1 with item := status.1, axis := status.2 })
        else .error .typeError
      | _ => .ok ([], { c1 with item := status.1, axis := status.2 })

/-- The child loop of `iter_children_or_self` over a raw element: yield
each child; a child with a tail then constructs
`TextNode(self, child.tail, child, True)`, one positional argument too
many: `TypeError`. -/
def rawChildYields : List Elem → Except PyErr (List PyObj)
  | [] => .ok []
  | ch :: rest =>
    match ch.tail with
    | some _ => .error .typeError
    | none =>
      match rawChildYields rest with
      | .error er => .error er
      | .ok ys => .ok (PyObj.elemV ch :: ys)

/-- `XPathContext.iter_children_or_self` (lines 556-615).  With an active
axis the item itself is yielded with no state change.  Otherwise the focus
is saved and the axis set to `child`; an `ElementNode` item then reaches
the missing `context` attribute (`AttributeError`); a `None` item iterates
the document root's children (or `etree_iter_root` of a raw root); a raw
element item with a callable tag hits the bare `return` of line 593 —
completing WITHOUT restoring the axis; a raw named element yields its text
(as a constructed text node), children and tails; other items fall through
to the final restore. -/
def iterChildrenOrSelf (c : Ctx) : Except PyErr (List PyObj × Ctx) :=
  if c.axis ≠ none then .ok ([c.item], c)
  else
    let status := (c.item, c.axis)
    let c1 : Ctx := { c with axis := some "child" }
    match kindOf c c.item with
    | some NKind.element => .error (.attributeError "context")
    | _ =>
      match c1.item with
      | .noneV =>
        match c.root with
        | .nodeV r =>
          if (getN c.arena r).kind = NKind.document then
            let ys := (getN c.arena r).children.map PyObj.nodeV
            .ok (ys, { assignItems c1 ys with item := status.1, axis := status.2 })
          else
            -- not a DocumentNode and not a raw document:
            -- etree_iter_root(self.root) on a node raises AttributeError
            .error (.attributeError "tag")
        | .docV d =>
          -- raw document root: etree_iter_root(document.getroot())
          let ys := [PyObj.elemV d]
          .ok (ys, { assignItems c1 ys with item := status.1, axis := status.2 })
        | .elemV e =>
          let ys := [PyObj.elemV e]
          .ok (ys, { assignItems c1 ys with item := status.1, axis := status.2 })
        | _ => .error (.attributeError "tag")
      | .elemV e =>
        if e.tag.isCallable then
          -- line 593: `return` after the axis was set, with no restore
          .ok ([], c1)
        else
          let textAlloc : List PyObj × List ANode :=
            match e.text with
            | some s =>
              ([PyObj.nodeV c1.arena.length],
                c1.arena ++ [{ kind := NKind.textN, elemF := .noneV, parentF := .strV s,
                               position := .elemV e, valueF := .ctxV }])
            | none => ([], c1.arena)
          match rawChildYields e.children.toList with
          | .error er => .error er
          | .ok ys2 =>
            let ys := textAlloc.1 ++ ys2
            let c2 := assignItems { c1 with arena := textAlloc.2 } ys
            .ok (ys, { c2 with item := status.1, axis := status.2 })
      | _ =>
        if kindOf c c.root = some NKind.document then
          match c.root with
          | .nodeV r =>
            let ys := (getN c.arena r).children.map PyObj.nodeV
            .ok (ys, { assignItems c1 ys with item := status.1, axis := status.2 })
          | _ => .ok ([], { c1 with item := status.1, axis := status.2 })
        else
          match c1.item with
          | .docV d =>
            -- is_document_node(self.item): etree_iter_root(item.getroot())
            let ys := [PyObj.elemV d]
            .ok (ys, { assignItems c1 ys with item := status.1, axis := status.2 })
          | .nodeV i =>
            if (getN c.arena i).kind = NKind.document then
              match docGetroot c i with
              | .error er => .error er
              | .ok _ => .error (.attributeError "tag")  -- etree_iter_root on a node
            else .ok ([], { c1 with item := status.1, axis := status.2 })
          | _ => .ok ([], { c1 with item := status.1, axis := status.2 })

/-- The `parent` resolution shared by the `TextNode` branches of
`iter_parent` and `iter_ancestors` (lines 625-628 / 776-779):
`callable(parent.tag)` raises on parents without a `tag` (including this
tree's node classes); on a named-tag parent the short-circuit falls to
`self.item.is_tail()`, which `TextNode` does not define: `AttributeError`. -/
def textParentOf (c : Ctx) (fuel : Nat) (i : Nat) : Except PyErr PyObj :=
  match (getN c.arena i).parentF with
  | .noneV => .ok .noneV
  | p =>
    match tagOf p with
    | .error er => .error er
    | .ok t => if t.isCallable then getParent c fuel p else .error (.attributeError "is_tail")

/-- `XPathContext.iter_parent` (lines 617-643): resolve the item's parent
(element nodes reach the missing `context` attribute), then yield it under
the `parent` axis and restore; no parent, or a non-node item, yields
nothing with no state change. -/
def iterParent (fuel : Nat) (c : Ctx) : Except PyErr (List PyObj × Ctx) :=
  let parentRes : Except PyErr (Option PyObj) :=
    match c.item with
    | .nodeV i =>
      match (getN c.arena i).kind with
      | .element => .error (.attributeError "context")
      | .textN => (textParentOf c fuel i).map some
      | _ => .ok (some (getN c.arena i).parentF)
    | .elemV e => (getParent c fuel (.elemV e)).map some
    | _ => .ok none
  match parentRes with
  | .error er => .error er
  | .ok none => .ok ([], c)
  | .ok (some p) =>
    match p with
    | .noneV => .ok ([], c)
    | _ =>
      let status := (c.item, c.axis)
      let c1 := { c with axis := some "parent", item := p }
      .ok ([p], { c1 with item := status.1, axis := status.2 })

/-- The preceding-sibling loop of `iter_siblings`'s legacy branch: yield
each child (and its tail text) until the item itself is reached. -/
def sibPrecLoop (item : PyObj) : List PyObj → Except PyErr (List PyObj)
  | [] => .ok []
  | k :: rest =>
    if pyBEq k item then .ok []
    else
      match tailOf k with
      | .error er => .error er
      | .ok tl =>
        match sibPrecLoop item rest with
        | .error er => .error er
        | .ok ys =>
          .ok (k :: ((match tl with | some s => [PyObj.strV s] | none => []) ++ ys))

/-- The following-sibling loop: children before the item are skipped
(tails untouched), those after it are yielded with their tail text. -/
def sibFollLoop (item : PyObj) : Bool → List PyObj → Except PyErr (List PyObj)
  | _, [] => .ok []
  | true, k :: rest =>
    match tailOf k with
    | .error er => .error er
    | .ok tl =>
      match sibFollLoop item true rest with
      | .error er => .error er
      | .ok ys =>
        .ok (k :: ((match tl with | some s => [PyObj.strV s] | none => []) ++ ys))
  | false, k :: rest =>
    if pyBEq k item then sibFollLoop item true rest else sibFollLoop item false rest

/-- `XPathContext.iter_siblings` (lines 645-714).  Element, comment and PI
node items reach the missing `context` attribute (`AttributeError`).  The
legacy branch handles raw named elements: resolve the parent (no parent:
return with no state change), save the focus, set the axis, iterate the
parent's children around the item, restore. -/
def iterSiblings (fuel : Nat) (axisArg : Option String) (c : Ctx) :
    Except PyErr (List PyObj × Ctx) :=
  match kindOf c c.item with
  | some .element | some .commentN | some .piN => .error (.attributeError "context")
  | _ =>
    match c.item with
    | .elemV e =>
      if e.tag.isCallable then .ok ([], c)
      else
        match getParent c fuel (.elemV e) with
        | .error er => .error er
        | .ok .noneV => .ok ([], c)
        | .ok p =>
          let status := (c.item, c.axis)
          let c1 := { c with axis := some (axisArg.getD "following-sibling") }
          match iterPyChildren c p with
          | .error er => .error er
          | .ok kids =>
            let run :=
              if axisArg = some "preceding-sibling" then sibPrecLoop c.item kids
              else sibFollLoop c.item false kids
            match run with
            | .error er => .error er
            | .ok ys => .ok (ys, { assignItems c1 ys with item := status.1, axis := status.2 })
    | _ => .ok ([], c)

/-- `XPathContext.iter_descendants` (lines 716-763).  Element and document
node items walk their `iter_descendants`; a `None` item calls
`self.root.iter(with_self)` (no such parameter: `TypeError`) on a document
root or the misspelled `self.root.iter_descendats()` (`AttributeError`)
otherwise; raw elements and documents hit the debug `RuntimeError`; other
nodes are yielded singly when `with_self`; anything else returns before
any state change.  Inner-focus mode saves and restores all four focus
fields, streaming mode just the item and axis. -/
def iterDescendantsAux (axisArg : Option String) (innerFocus : Bool) (c : Ctx)
    (descRes : Except PyErr (Option (List PyObj))) : Except PyErr (List PyObj × Ctx) :=
  match descRes with
  | .error er => .error er
  | .ok none => .ok ([], c)
  | .ok (some descendants) =>
    if innerFocus then
      let status := (c.item, c.position, c.size, c.axis)
      let c1 := { c with axis := axisArg }
      let c2 := { c1 with size := PyObj.intV descendants.length }
      let c3 := assignEnum c2 descendants
      .ok (descendants,
        { c3 with item := status.1, position := status.2.1, size := status.2.2.1,
                  axis := status.2.2.2 })
    else
      let status := (c.item, c.axis)
      let c1 := { c with axis := axisArg }
      let c2 := assignItems c1 descendants
      .ok (descendants, { c2 with item := status.1, axis := status.2 })

/-- The descendant selection of `iter_descendants` (everything before the
yield loops): a `none` result is the final `else: return` before any state
change. -/
def iterDescendantsSel (fuel : Nat) (axisArg : Option String) (c : Ctx) :
    Except PyErr (Option (List PyObj)) :=
  let withSelf := axisArg ≠ some "descendant"
  match c.item with
  | .nodeV i =>
    match (getN c.arena i).kind with
    | .element | .document => .ok (some (nodeIterDescendants c.arena fuel i withSelf))
    | _ => if withSelf then .ok (some [c.item]) else .ok none
  | .noneV =>
    if kindOf c c.root = some NKind.document then .error .typeError
    else .error (.attributeError "iter_descendats")
  | .elemV e =>
    if e.tag.isCallable then .ok none
    else .error .runtimeError
  | .docV _ => .error .runtimeError
  | _ => .ok none

def iterDescendants (fuel : Nat) (axisArg : Option String) (innerFocus : Bool) (c : Ctx) :
    Except PyErr (List PyObj × Ctx) :=
  iterDescendantsAux axisArg innerFocus c (iterDescendantsSel fuel axisArg c)

/-- The `while parent is not None` ancestor accumulation of
`iter_ancestors` / `iter_preceding`. -/
def ancWhile (c : Ctx) : Nat → PyObj → List PyObj → Except PyErr (List PyObj)
  | _, .noneV, acc => .ok acc
  | 0, _, _ => .error .outOfFuelC
  | fuel + 1, p, acc =>
    match getParent c fuel p with
    | .error er => .error er
    | .ok p2 => ancWhile c fuel p2 (acc ++ [p])

/-- `XPathContext.iter_ancestors` (lines 765-807).  Element node items
reach the missing `context` attribute (`AttributeError`); text node items
go through `textParentOf`; other node kinds answer from their `parent`
slot; atomic and `None` items return untouched; raw elements resolve
through the parent map; raw documents have no parent.  The ancestor chain
is accumulated nearest-first and yielded reversed, the focus restored at
the end. -/
def iterAncestors (fuel : Nat) (axisArg : Option String) (c : Ctx) :
    Except PyErr (List PyObj × Ctx) :=
  let parentRes : Except PyErr (Option PyObj) :=
    match c.item with
    | .nodeV i =>
      match (getN c.arena i).kind with
      | .element => .error (.attributeError "context")
      | .textN => (textParentOf c fuel i).map some
      | _ => .ok (some (getN c.arena i).parentF)
    | .atomicV _ => .ok none
    | .noneV => .ok none
    | .elemV e => (getParent c fuel (.elemV e)).map some
    | .docV _ => .ok (some .noneV)
    | _ => .ok none
  match parentRes with
  | .error er => .error er
  | .ok none => .ok ([], c)
  | .ok (some p0) =>
    let status := (c.item, c.axis)
    let c1 := { c with axis := some (axisArg.getD "ancestor") }
    let init := if axisArg = some "ancestor-or-self" then [c.item] else []
    match ancWhile c fuel p0 init with
    | .error er => .error er
    | .ok ancestors =>
      let ys := ancestors.reverse
      .ok (ys, { assignItems c1 ys with item := status.1, axis := status.2 })

/-- `XPathContext.iter_preceding` (lines 809-848).  Element node items
reach the missing `context` attribute; other node items with no parent
return untouched; otherwise, after the ancestor-set loop, the generator
calls `self._iter_nodes(self.root)`, i.e. `root.iter(with_self=...)` —
a keyword no node class accepts: `TypeError` before any yield. -/
def iterPreceding (fuel : Nat) (c : Ctx) : Except PyErr (List PyObj × Ctx) :=
  match c.item with
  | .nodeV i =>
    match (getN c.arena i).kind with
    | .element => .error (.attributeError "context")
    | _ =>
      match (getN c.arena i).parentF with
      | .noneV => .ok ([], c)
      | p =>
        match tagOf p with
        | .error er => .error er
        | .ok t =>
          let pRes := if t.isCallable then getParent c fuel p else .ok p
          match pRes with
          | .error er => .error er
          | .ok p2 =>
            match ancWhile c fuel p2 [] with
            | .error er => .error er
            | .ok _ => .error .typeError
  | _ => .ok ([], c)

/-- `XPathContext.iter_followings` (lines 850-864).  A `None` item or the
root itself returns untouched; an element node item computes its
descendant set and then iterates `self.root.iter()`, whose first yielded
node is compared via `item.index` — an attribute no node class defines:
`AttributeError` (the root walks always yield at least one node).
Non-element items fall off the generator with no yields and no state
change. -/
def iterFollowings (fuel : Nat) (c : Ctx) : Except PyErr (List PyObj × Ctx) :=
  if pyBEq c.item PyObj.noneV || pyBEq c.item c.root then .ok ([], c)
  else
    match c.item with
    | .nodeV i =>
      if (getN c.arena i).kind = NKind.element then
        match c.root with
        | .nodeV r =>
          match nodeIterFull c.arena fuel r with
          | .error er => .error er
          | .ok _ => .error (.attributeError "index")
        | .elemV _ => .error (.attributeError "index")
        | .docV _ => .error (.attributeError "index")
        | _ => .error (.attributeError "iter")
      else .ok ([], c)
    | _ => .ok ([], c)

/-- `XPathContext.inner_focus_select` (lines 457-473): materialise the
token's selection on a copy of the context (the copy shields the outer
state, so the result list is a parameter here), save all four focus
fields, clear the axis, run the inner focus loop (reverse axes count the
position down from the length, forward ones enumerate from 1), restore. -/
def innerFocusSelect (results : List PyObj) (isReverseAxis : Bool) (c : Ctx) :
    List PyObj × Ctx :=
  let status := (c.item, c.size, c.position, c.axis)
  let c1 := { c with axis := none }
  if isReverseAxis then
    let c2 := { c1 with size := PyObj.intV results.length,
                        position := PyObj.intV results.length }
    let c3 := assignRev c2 results
    (results, { c3 with item := status.1, size := status.2.1, position := status.2.2.1,
                        axis := status.2.2.2 })
  else
    let c2 := { c1 with size := PyObj.intV results.length }
    let c3 := assignEnum c2 results
    (results, { c3 with item := status.1, size := status.2.1, position := status.2.2.1,
                        axis := status.2.2.2 })

/-- Selector for the axis iterators of the dynamic context. -/
inductive AxisSel where
  | selfA
  | attributeA
  | childOrSelf
  | parentA
  | siblings (axisArg : Option String)
  | descendants (axisArg : Option String) (innerFocus : Bool)
  | ancestors (axisArg : Option String)
  | precedingA
  | followings
  deriving DecidableEq, Repr

/-- Dispatch to the nine axis iterators. -/
def runAxis (fuel : Nat) : AxisSel → Ctx → Except PyErr (List PyObj × Ctx)
  | .selfA, c => iterSelf c
  | .attributeA, c => iterAttributes c
  | .childOrSelf, c => iterChildrenOrSelf c
  | .parentA, c => iterParent fuel c
  | .siblings a, c => iterSiblings fuel a c
  | .descendants a inner, c => iterDescendants fuel a inner c
  | .ancestors a, c => iterAncestors fuel a c
  | .precedingA, c => iterPreceding fuel c
  | .followings, c => iterFollowings fuel c

/-- The one drained-but-not-restored case: the child axis on a raw comment
or processing-instruction item with no active axis (line 593's bare
`return` leaves `axis = 'child'`). -/
def childCallableEscape (a : AxisSel) (c : Ctx) : Prop :=
  a = .childOrSelf ∧ c.axis = none ∧
    ∃ e, c.item = .elemV e ∧ e.tag.isCallable = true

instance (a : AxisSel) (c : Ctx) : Decidable (childCallableEscape a c) := by
  unfold childCallableEscape
  cases c.item <;> simp <;> infer_instance

/-! ## The token evaluation protocol (`xpath_token.py`, lines 68-89) -/

/-- The result of an overriding `evaluate` method: `None`, a list, or a
scalar. -/
inductive EvalV where
  | noneR
  | listR (xs : List PyObj)
  | scalarR (v : PyObj)

/-- The default `XPathToken.select` built over an `evaluate`: a `None`
result yields nothing; a list result yields its items; a scalar result is
yielded after being written to the context's item when a context is
supplied. -/
def selectDefault (ev : Option Ctx → EvalV) (context : Option Ctx) :
    List PyObj × Option Ctx :=
  match ev context with
  | .noneR => ([], context)
  | .listR xs => (xs, context)
  | .scalarR v =>
    match context with
    | some c => ([v], some { c with item := v })
    | none => ([v], none)

/-- The default `XPathToken.evaluate`: materialise `select(context)` into
a list. -/
def evaluateDefault (sel : Option Ctx → List PyObj × Option Ctx)
    (context : Option Ctx) : List PyObj :=
  (sel context).1

/-! ## Concrete registrations and trees used by the claims -/

/-- A token class registered through the `literal` combinator at binding
power 0. -/
def litCls : SymClass := ⟨0, .litNud, .undef⟩

/-- The `(end)` sentinel class (`register('(end)')`). -/
def endCls : SymClass := ⟨0, .undef, .undef⟩

/-- Literal classes plus `+` (infix combinator, bp 10) and `*` (infix
combinator, bp 20). -/
def tblMul : SymTable :=
  [("(integer)", litCls), ("(decimal)", litCls), ("(float)", litCls),
   ("(string)", litCls), ("(name)", litCls),
   ("+", ⟨10, .undef, .binL 10⟩), ("*", ⟨20, .undef, .binL 20⟩),
   ("(end)", endCls)]

/-- Name literals plus `+` (infix combinator) and `^` (infixr combinator)
at the same binding power 10. -/
def tblAssoc : SymTable :=
  [("(name)", litCls),
   ("+", ⟨10, .undef, .binL 10⟩), ("^", ⟨10, .undef, .binR 10⟩),
   ("(end)", endCls)]

/-- A table with the blank-embedding symbol `not in`: the tokenizer
matches its text, but `advance` looks it up with blanks removed, a key
that is not in the table — the unknown-operator syntax error. -/
def tblSpaced : SymTable :=
  [("(name)", litCls), ("not in", ⟨10, .undef, .binL 10⟩), ("(end)", endCls)]

/-- An empty element with the given tag name. -/
def leafElem (tagName : String) : Elem :=
  .mk (.named tagName) [] none none .enil

/-- The tree `<A><B1/><B2/></A>`. -/
def treeA : Elem :=
  .mk (.named "A") [] none none (.econs (leafElem "B1") (.econs (leafElem "B2") .enil))

/-- The node arena the context builds from `<A><B1/><B2/></A>`
(fuel 99 is ample for a three-node tree). -/
def arenaA : List ANode :=
  match buildNodes 99 (.elemR treeA) with
  | .ok a => a
  | .error _ => []

/-- A context over that tree with the node built for `B1` as its item. -/
def ctxB1 : Ctx :=
  ⟨arenaA, .nodeV 0, .nodeV 1, .intV 1, .intV 1, none, []⟩

/-- A context over that tree with the root node `A` as its item. -/
def ctxA0 : Ctx :=
  ⟨arenaA, .nodeV 0, .nodeV 0, .intV 1, .intV 1, none, []⟩

/-- A context over that tree positioned on an atomic value. -/
def ctxAtom : Ctx :=
  ⟨arenaA, .nodeV 0, .atomicV 7, .intV 3, .intV 5, none, []⟩

/-- A raw comment element (callable tag). -/
def commentElem : Elem := .mk .commentFn [] (some "hi") none .enil

/-- A context positioned on a raw comment element with no active axis. -/
def ctxComment : Ctx :=
  ⟨arenaA, .nodeV 0, .elemV commentElem, .intV 1, .intV 1, none, []⟩

/-- An overriding `evaluate` with a scalar result, for the C9 witness. -/
def evScalarFive : Option Ctx → EvalV := fun _ => .scalarR (.intV 5)

/-- The parse phase of `"1 + 2"` over `tblMul` (a successful run, used to
instantiate the C6 theorem). -/
def phaseRun : PTok × PState :=
  (parsePhaseFrom tblMul 99 ⟨none, []⟩ "1 + 2").toOption.getD (default, ⟨none, []⟩)

/-- A completed inner-focus descendant run from the root of `treeA` (used
to instantiate the C2 theorem). -/
def descRunA : List PyObj × Ctx :=
  (iterDescendants 50 none true ctxA0).toOption.getD ([], ctxA0)

/-- The source `"a <= b"` of the longest-match tokenizing example, as a
character list. -/
def srcLeq : List Char := ['a', ' ', '<', '=', ' ', 'b']

/-! ## Theorems -/

/-- C1: the claim asserts unique, strictly increasing document-order
positions with root 1 and children 2 and 3 for `<A><B1/><B2/></A>`.  The
build as written passes the context as the first constructor argument, so
`ElementNode(self, elem, parent)` binds `position` to the parent node
object and never increments a counter (the `total_nodes` counter the class
documents stays 0): the root keeps the default position `1` while `B1` and
`B2` both carry the node object of `A` — equal, and not the integers 2 and
3.  This contradicts the source's own `position: int` document-order
annotation; the tree built from the failing input is evaluated here. -/
theorem c1_build_positions_not_increasing :
    buildNodes 99 (.elemR treeA) = .ok arenaA ∧
    (getN arenaA 0).position = .intV 1 ∧
    (getN arenaA 1).position = .nodeV 0 ∧
    (getN arenaA 2).position = .nodeV 0 ∧
    (getN arenaA 1).position = (getN arenaA 2).position ∧
    (getN arenaA 1).position ≠ .intV 2 := by
  refine ⟨rfl, rfl, rfl, rfl, rfl, fun h => ?_⟩
  exact PyObj.noConfusion h

/-- C3: with `+` registered at binding power 10 and `*` at 20, parsing
`"1 + 2 * 3"` produces the token tree rendered `(+ (1) (* (2) (3)))`: the
`expression(rbp)` core obtains the left operand through the prefix
behaviour and keeps absorbing infix operators exactly while the
lookahead's left binding power exceeds `rbp`. -/
theorem c3_pratt_precedence :
    (parseCore tblMul 99 "1 + 2 * 3").map PTok.tree = .ok "(+ (1) (* (2) (3)))" := rfl

/-- C4: with `+` registered through the infix combinator and `^` through
the infixr combinator at the same binding power, `"a + b + c"` parses
left-associated and `"a ^ b ^ c"` right-associated (the infixr behaviour
recurses with `bp - 1`). -/
theorem c4_associativity :
    (parseCore tblAssoc 99 "a + b + c").map PTok.tree = .ok "(+ (+ (a) (b)) (c))" ∧
    (parseCore tblAssoc 99 "a ^ b ^ c").map PTok.tree = .ok "(^ (a) (^ (b) (c)))" :=
  ⟨rfl, rfl⟩

/-- C6: `parse` returns the root token exactly when the parsed expression
leaves the lookahead at the `(end)` sentinel (first two conjuncts), and
raises a syntax error on trailing unconsumed input (`"1 2"`), on premature
end of input (`"1 +"`), and on operator text absent from the symbol table
(`"a not in b"`, whose `not in` match is looked up as `notin`); a source
that is one complete expression parses successfully. -/
theorem c6_parse_outcomes :
    (∀ tbl fuel entry src root st2 t,
        parsePhaseFrom tbl fuel entry src = .ok (root, st2) →
        st2.next = some t → t.symbol = "(end)" →
        parseResultFrom tbl fuel entry src = .ok root) ∧
    (∀ tbl fuel entry src root st2 t,
        parsePhaseFrom tbl fuel entry src = .ok (root, st2) →
        st2.next = some t → t.symbol ≠ "(end)" →
        parseResultFrom tbl fuel entry src = .error (.unexpectedToken t.symbol)) ∧
    parseCore tblMul 99 "1 2" = .error (.unexpectedToken "(integer)") ∧
    parseCore tblMul 99 "1 +" = .error .unexpectedEndOfSource ∧
    parseCore tblSpaced 99 "a not in b" = .error (.unknownOperator "not in") ∧
    (parseCore tblMul 99 "1 + 2").map PTok.tree = .ok "(+ (1) (2))" := by
  refine ⟨?_, ?_, rfl, rfl, rfl, rfl⟩
  · intro tbl fuel entry src root st2 t h1 h2 h3
    simp only [parseResultFrom, h1, h2, h3, if_pos]
  · intro tbl fuel entry src root st2 t h1 h2 h3
    simp only [parseResultFrom, h1, h2, h3, if_neg, if_false]

/-- Witness for C6: the parse phase of `"1 + 2"` really does end on the
`(end)` sentinel and the first conjunct yields its successful result. -/
theorem c6_parse_outcomes_witness :
    parseResultFrom tblMul 99 ⟨none, []⟩ "1 + 2" = .ok phaseRun.1 :=
  c6_parse_outcomes.1 tblMul 99 ⟨none, []⟩ "1 + 2" phaseRun.1 phaseRun.2 endTok rfl rfl rfl

/-- C7: the claim asserts that the ancestor axis of `B1` yields `[A]` and
of `A` the empty sequence.  `iter_ancestors` first evaluates
`self.item.context`, an attribute the `ElementNode` class of this tree
does not define (its `__slots__` have no `context`): the iterator raises
`AttributeError` for every element-node item, so neither claimed result is
produced.  (The test suite expects `iter_ancestors` of a child to yield
`[root]`.) -/
theorem c7_ancestors_raise_attribute_error :
    iterAncestors 50 none ctxB1 = .error (.attributeError "context") ∧
    iterAncestors 50 none ctxA0 = .error (.attributeError "context") :=
  ⟨rfl, rfl⟩

/-- C9: the default `evaluate` materialises exactly the items the default
`select` produces; a `None` result of the overridden `evaluate` yields
nothing; a list result is yielded as is with the context untouched; a
non-list result is yielded once after being written to the supplied
context's item. -/
theorem c9_select_evaluate_contract :
    (∀ (ev : Option Ctx → EvalV) (context : Option Ctx),
        evaluateDefault (selectDefault ev) context = (selectDefault ev context).1) ∧
    (∀ (ev : Option Ctx → EvalV) (context : Option Ctx),
        ev context = .noneR → selectDefault ev context = ([], context)) ∧
    (∀ (ev : Option Ctx → EvalV) (context : Option Ctx) (xs : List PyObj),
        ev context = .listR xs → selectDefault ev context = (xs, context)) ∧
    (∀ (ev : Option Ctx → EvalV) (c : Ctx) (v : PyObj),
        ev (some c) = .scalarR v →
        selectDefault ev (some c) = ([v], some { c with item := v })) := by
  refine ⟨fun _ _ => rfl, ?_, ?_, ?_⟩
  · intro ev context h
    simp [selectDefault, h]
  · intro ev context xs h
    simp [selectDefault, h]
  · intro ev c v h
    simp [selectDefault, h]

/-- Witness for C9: a scalar-valued `evaluate` at a concrete context. -/
theorem c9_select_evaluate_contract_witness :
    selectDefault evScalarFive (some ctxB1) =
      ([.intV 5], some { ctxB1 with item := .intV 5 }) :=
  c9_select_evaluate_contract.2.2.2 evScalarFive ctxB1 (.intV 5) rfl

/-- The positions produced by the `namespace_nodes` loop are consecutive
from its starting counter, one per non-`xml` entry. -/
theorem nsLoop_positions :
    ∀ (l : List (Option String × String)) (pos : Nat),
      (nsLoop pos l).map NsNode.position = List.range' pos (nonXmlCount l) := by
  intro l
  induction l with
  | nil => intro pos; rfl
  | cons kv rest ih =>
    intro pos
    by_cases h : kv.1 = some "xml"
    · simp [nsLoop, h, ih, nonXmlCount, List.filter_cons]
    · simp [nsLoop, h, ih, nonXmlCount, List.filter_cons, List.range'_succ]

/-- The positions of `enumerate(..., start)` are consecutive. -/
theorem enumFrom_positions (start : Nat) :
    ∀ (l : List (String × String)) (k : Nat),
      (List.enumFrom k l).map (fun iv => start + iv.1) = List.range' (start + k) l.length := by
  intro l
  induction l with
  | nil => intro k; rfl
  | cons a rest ih =>
    intro k
    simp only [List.enumFrom, List.map_cons, List.length_cons, List.range'_succ]
    rw [ih (k + 1), ← Nat.add_assoc]

/-- The length of a namespace map splits into its `xml` count and its
non-`xml` count. -/
theorem nsmapLenSplit :
    ∀ nsmap : List (Option String × String),
      nsmap.length = nsmap.countP (fun kv => kv.1 == some "xml") + nonXmlCount nsmap := by
  intro nsmap
  induction nsmap with
  | nil => rfl
  | cons kv rest ih =>
    by_cases h : kv.1 = some "xml" <;>
      simp [List.countP_cons, nonXmlCount, List.filter_cons, h] at ih ⊢ <;> omega

/-- `len(nsmap) + int('xml' not in nsmap)` is one more than the number of
non-`xml` entries, provided `xml` occurs at most once (a dictionary key). -/
theorem nsmapStartArith (nsmap : List (Option String × String))
    (hxml : nsmap.countP (fun kv => kv.1 == some "xml") ≤ 1) :
    nsmap.length + (if nsmap.all (fun kv => kv.1 ≠ some "xml") then 1 else 0) =
      nonXmlCount nsmap + 1 := by
  have hsplit := nsmapLenSplit nsmap
  by_cases hall : (nsmap.all fun kv => decide (kv.1 ≠ some "xml")) = true
  · rw [if_pos hall]
    have hzero : nsmap.countP (fun kv => kv.1 == some "xml") = 0 := by
      rw [List.countP_eq_zero]
      intro a ha
      have h2 := List.all_eq_true.mp hall a ha
      simp only [decide_eq_true_eq] at h2
      simpa using h2
    omega
  · rw [if_neg hall]
    have hone : nsmap.countP (fun kv => kv.1 == some "xml") = 1 := by
      refine Nat.le_antisymm hxml ?_
      rw [List.all_eq_true] at hall
      push_neg at hall
      obtain ⟨a, ha, hne⟩ := hall
      have hx : a.1 = some "xml" := by
        by_contra hc
        exact hne (by simp [hc])
      refine List.countP_pos_iff.mpr ⟨a, ha, ?_⟩
      simp [hx]
    omega

/-- C8 (counterexample): for an element at position 1 with an empty
namespace map and one attribute, the implicit `xml` namespace node and the
attribute node are both assigned position 2 — the claim's "namespace nodes
positioned before (and not overlapping) every attribute node" fails. -/
theorem c8_namespace_attribute_overlap :
    (namespaceNodesOf 1 []).map NsNode.position = [2] ∧
    (attributesOf 1 [] [("a", "v")]).map AttrNode.position = [2] ∧
    ¬ (2 : Nat) < 2 := ⟨rfl, rfl, by decide⟩

/-- C8 (amended): namespace and attribute nodes are computed on first
access from the element's namespace and attribute maps, with the implicit
`xml` namespace node first; namespace nodes occupy consecutive positions
immediately following the owning element's position, and attribute nodes
occupy consecutive positions starting AT the last namespace node's
position `p + 1 + nonXmlCount nsmap` — i.e. the first attribute node
shares its position with the last namespace node instead of following it. -/
theorem c8_lazy_node_positions (p : Nat) (nsmap : List (Option String × String))
    (attrib : List (String × String))
    (hxml : nsmap.countP (fun kv => kv.1 == some "xml") ≤ 1) :
    (namespaceNodesOf p nsmap).map NsNode.position =
      List.range' (p + 1) (nonXmlCount nsmap + 1) ∧
    (attributesOf p nsmap attrib).map AttrNode.position =
      List.range' (p + 1 + nonXmlCount nsmap) attrib.length := by
  constructor
  · simp only [namespaceNodesOf, List.map_cons, nsLoop_positions, List.range'_succ]
  · simp only [attributesOf, List.map_map]
    have h : (AttrNode.position ∘ fun iv : Nat × String × String =>
        (⟨iv.2.1, iv.2.2, p + nsmap.length +
          (if nsmap.all (fun kv => kv.1 ≠ some "xml") then 1 else 0) + iv.1⟩ : AttrNode)) =
        (fun iv : Nat × String × String => p + nsmap.length +
          (if nsmap.all (fun kv => kv.1 ≠ some "xml") then 1 else 0) + iv.1) := rfl
    rw [h]
    have hf := enumFrom_positions
      (p + nsmap.length + (if nsmap.all (fun kv => kv.1 ≠ some "xml") then 1 else 0)) attrib 0
    have harith := nsmapStartArith nsmap hxml
    rw [List.enum, hf]
    congr 1
    omega

/-- Witness for C8: an element at position 1 with one non-`xml` namespace
entry and two attributes — namespace nodes at 2 and 3, attributes at 3
and 4. -/
theorem c8_lazy_node_positions_witness :
    (namespaceNodesOf 1 [(some "ns0", "u0")]).map NsNode.position = List.range' 2 2 ∧
    (attributesOf 1 [(some "ns0", "u0")] [("a", "v"), ("b", "w")]).map AttrNode.position =
      List.range' 3 2 :=
  c8_lazy_node_positions 1 [(some "ns0", "u0")] [("a", "v"), ("b", "w")] (by decide)

/-- Item assignment during a yield loop leaves the position untouched. -/
theorem assignItems_position :
    ∀ (ys : List PyObj) (c : Ctx), (assignItems c ys).position = c.position := by
  intro ys
  induction ys with
  | nil => intro c; rfl
  | cons y ys ih => intro c; exact ih { c with item := y }

/-- Item assignment during a yield loop leaves the size untouched. -/
theorem assignItems_size :
    ∀ (ys : List PyObj) (c : Ctx), (assignItems c ys).size = c.size := by
  intro ys
  induction ys with
  | nil => intro c; rfl
  | cons y ys ih => intro c; exact ih { c with item := y }

/-- A drained `iter_self` restores the focus. -/
theorem iterSelf_restores (c : Ctx) (ys : List PyObj) (c' : Ctx)
    (h : iterSelf c = .ok (ys, c')) : focusOf c' = focusOf c := by
  unfold iterSelf at h
  simp only [Except.ok.injEq, Prod.mk.injEq] at h
  obtain ⟨-, h2⟩ := h
  subst h2
  rfl

/-- A drained `iter_attributes` restores the focus. -/
theorem iterAttributes_restores (c : Ctx) (ys : List PyObj) (c' : Ctx)
    (h : iterAttributes c = .ok (ys, c')) : focusOf c' = focusOf c := by
  unfold iterAttributes at h
  repeat'
    first
    | split at h
    | simp only [] at h
  all_goals
    first
    | exact Except.noConfusion h
    | (injection h with h1; injection h1 with h2 h3; subst h3;
       simp [focusOf, assignItems_position, assignItems_size])

/-- A drained `iter_parent` restores the focus. -/
theorem iterParent_restores (fuel : Nat) (c : Ctx) (ys : List PyObj) (c' : Ctx)
    (h : iterParent fuel c = .ok (ys, c')) : focusOf c' = focusOf c := by
  unfold iterParent at h
  repeat'
    first
    | split at h
    | simp only [] at h
  all_goals
    first
    | exact Except.noConfusion h
    | (injection h with h1; injection h1 with h2 h3; subst h3;
       simp [focusOf, assignItems_position, assignItems_size])

/-- A drained `iter_siblings` restores the focus. -/
theorem iterSiblings_restores (fuel : Nat) (axisArg : Option String) (c : Ctx)
    (ys : List PyObj) (c' : Ctx)
    (h : iterSiblings fuel axisArg c = .ok (ys, c')) : focusOf c' = focusOf c := by
  unfold iterSiblings at h
  repeat'
    first
    | split at h
    | simp only [] at h
  all_goals
    first
    | exact Except.noConfusion h
    | (injection h with h1; injection h1 with h2 h3; subst h3;
       simp [focusOf, assignItems_position, assignItems_size])

/-- A drained `iter_descendants` restores the focus: the inner-focus mode
restores all four fields, the streaming mode mutates only the item and
axis and restores both. -/
theorem iterDescendantsAux_restores (axisArg : Option String) (innerFocus : Bool) (c : Ctx)
    (r : Except PyErr (Option (List PyObj))) (ys : List PyObj) (c' : Ctx)
    (h : iterDescendantsAux axisArg innerFocus c r = .ok (ys, c')) :
    focusOf c' = focusOf c := by
  unfold iterDescendantsAux at h
  repeat'
    first
    | split at h
    | simp only [] at h
  all_goals
    first
    | exact Except.noConfusion h
    | (injection h with h1; injection h1 with h2 h3; subst h3;
       simp [focusOf, assignItems_position, assignItems_size])

/-- A drained `iter_ancestors` restores the focus. -/
theorem iterAncestors_restores (fuel : Nat) (axisArg : Option String) (c : Ctx)
    (ys : List PyObj) (c' : Ctx)
    (h : iterAncestors fuel axisArg c = .ok (ys, c')) : focusOf c' = focusOf c := by
  unfold iterAncestors at h
  repeat'
    first
    | split at h
    | simp only [] at h
  all_goals
    first
    | exact Except.noConfusion h
    | (injection h with h1; injection h1 with h2 h3; subst h3;
       simp [focusOf, assignItems_position, assignItems_size])

/-- A drained `iter_preceding` restores the focus (the only completing
paths return before any state change). -/
theorem iterPreceding_restores (fuel : Nat) (c : Ctx) (ys : List PyObj) (c' : Ctx)
    (h : iterPreceding fuel c = .ok (ys, c')) : focusOf c' = focusOf c := by
  unfold iterPreceding at h
  repeat'
    first
    | split at h
    | simp only [] at h
  all_goals
    first
    | exact Except.noConfusion h
    | (injection h with h1; injection h1 with h2 h3; subst h3;
       simp [focusOf, assignItems_position, assignItems_size])

/-- A drained `iter_followings` restores the focus (only non-mutating
paths complete). -/
theorem iterFollowings_restores (fuel : Nat) (c : Ctx) (ys : List PyObj) (c' : Ctx)
    (h : iterFollowings fuel c = .ok (ys, c')) : focusOf c' = focusOf c := by
  unfold iterFollowings at h
  repeat'
    first
    | split at h
    | simp only [] at h
  all_goals
    first
    | exact Except.noConfusion h
    | (injection h with h1; injection h1 with h2 h3; subst h3;
       simp [focusOf, assignItems_position, assignItems_size])

/-- With an active axis, `iter_children_or_self` yields the item with no
state change at all. -/
theorem iterChildrenOrSelf_active_axis (c : Ctx) (ys : List PyObj) (c' : Ctx)
    (hax : c.axis ≠ none)
    (h : iterChildrenOrSelf c = .ok (ys, c')) : focusOf c' = focusOf c := by
  unfold iterChildrenOrSelf at h
  rw [if_pos hax] at h
  injection h with h1
  injection h1 with h2 h3
  subst h3
  rfl

/-- A drained `iter_children_or_self` either restores the focus or hits
line 593's bare `return` — a raw item with a callable tag — leaving the
axis set to `child`. -/
theorem iterChildrenOrSelf_cases (c : Ctx) (ys : List PyObj) (c' : Ctx)
    (h : iterChildrenOrSelf c = .ok (ys, c')) :
    focusOf c' = focusOf c ∨
      (∃ e, c.item = .elemV e ∧ e.tag.isCallable = true ∧
        c' = { c with axis := some "child" }) := by
  unfold iterChildrenOrSelf at h
  repeat'
    first
    | split at h
    | simp only [] at h
  all_goals
    first
    | exact Except.noConfusion h
    | (left; injection h with h1; injection h1 with h2 h3; subst h3;
       simp [focusOf, assignItems_position, assignItems_size]; done)
    | (right
       rename_i e he hcall
       injection h with h1
       injection h1 with h2 h3
       subst h3
       exact ⟨e, he, hcall, rfl⟩)

/-- The combined restore statement over the axis dispatch. -/
theorem runAxis_restores (fuel : Nat) (a : AxisSel) (c : Ctx) (ys : List PyObj) (c' : Ctx)
    (h : runAxis fuel a c = .ok (ys, c'))
    (hesc : ¬ childCallableEscape a c) : focusOf c' = focusOf c := by
  cases a with
  | selfA => exact iterSelf_restores c ys c' h
  | attributeA => exact iterAttributes_restores c ys c' h
  | childOrSelf =>
    by_cases hax : c.axis = none
    · rcases iterChildrenOrSelf_cases c ys c' h with h1 | ⟨e, he, hcall, -⟩
      · exact h1
      · exact absurd ⟨rfl, hax, e, he, hcall⟩ hesc
    · exact iterChildrenOrSelf_active_axis c ys c' hax h
  | parentA => exact iterParent_restores fuel c ys c' h
  | siblings axisArg => exact iterSiblings_restores fuel axisArg c ys c' h
  | descendants axisArg inner =>
    exact iterDescendantsAux_restores axisArg inner c
      (iterDescendantsSel fuel axisArg c) ys c' h
  | ancestors axisArg => exact iterAncestors_restores fuel axisArg c ys c' h
  | precedingA => exact iterPreceding_restores fuel c ys c' h
  | followings => exact iterFollowings_restores fuel c ys c' h

/-- C2 (counterexample): the child-axis iterator on a raw comment item
with no active axis drains (zero yields) yet leaves `axis = 'child'`
behind: line 593's bare `return` comes after the axis was set but skips
the restore, so the (item, position, size, axis) quadruple differs from
its pre-call value on a fully drained run. -/
theorem c2_child_axis_not_restored :
    iterChildrenOrSelf ctxComment = .ok ([], { ctxComment with axis := some "child" }) ∧
    focusOf { ctxComment with axis := some "child" } ≠ focusOf ctxComment := by
  refine ⟨rfl, fun h => ?_⟩
  simp [focusOf, ctxComment] at h

/-- C2 (amended): after any of the nine axis iterators of the dynamic
context has been fully drained, the context's (item, position, size, axis)
fields equal their pre-call values — with the single exception of the
child-axis iterator invoked with no active axis on a raw etree
comment/processing-instruction item (callable tag), which completes
leaving `axis = 'child'`; the inner-focus selection always restores all
four fields. -/
theorem c2_axis_iterators_restore_focus :
    (∀ (fuel : Nat) (a : AxisSel) (c : Ctx) (ys : List PyObj) (c' : Ctx),
        runAxis fuel a c = .ok (ys, c') → ¬ childCallableEscape a c →
        focusOf c' = focusOf c) ∧
    (∀ (results : List PyObj) (isReverseAxis : Bool) (c : Ctx),
        focusOf (innerFocusSelect results isReverseAxis c).2 = focusOf c) := by
  constructor
  · intro fuel a c ys c' h hesc
    exact runAxis_restores fuel a c ys c' h hesc
  · intro results rev c
    unfold innerFocusSelect
    split <;> rfl

/-- Witness for C2: a completed inner-focus descendant walk from the root
of `<A><B1/><B2/></A>` restores the focus. -/
theorem c2_axis_iterators_restore_focus_witness :
    focusOf descRunA.2 = focusOf ctxA0 :=
  c2_axis_iterators_restore_focus.1 50 (.descendants none true) ctxA0 descRunA.1 descRunA.2
    rfl (fun h => AxisSel.noConfusion h.1)

/-- C10: whatever `parse` returns or raises, its `finally` clause leaves
the token stream cleared and the lookahead `None`; consequently a later
`parse` on the same parser instance behaves exactly as one from the
baseline state, even after a failed parse. -/
theorem c10_parse_state_reset :
    (∀ (tbl : SymTable) (fuel : Nat) (entry : PState) (src : String),
        (parseFrom tbl fuel entry src).2 = ⟨none, []⟩) ∧
    (∀ (tbl : SymTable) (fuel : Nat) (entry : PState) (src src2 : String),
        parseFrom tbl fuel (parseFrom tbl fuel entry src).2 src2 =
          parseFrom tbl fuel ⟨none, []⟩ src2) :=
  ⟨fun _ _ _ _ => rfl, fun _ _ _ _ _ => rfl⟩


/-! ### C5 support: longest-match tokenizing of `"a <= b"` -/

/-- `litMatchCh` succeeds exactly on prefixes: a success means the input is
the pattern followed by the returned rest. -/
theorem litMatchCh_some_imp (p : List Char) :
    ∀ t r, litMatchCh p t = some r → t = p ++ r := by
  induction p with
  | nil =>
    intro t r h
    injection h
  | cons c cs ih =>
    intro t r h
    cases t with
    | nil => exact absurd h (by simp [litMatchCh])
    | cons d ds =>
      unfold litMatchCh at h
      split at h
      · next heq =>
        subst heq
        simp [ih ds r h]
      · exact absurd h (by simp)

/-- A whitespace-free list matching a prefix of an input that starts with a
space must be empty. -/
theorem wsfreeBody_sp (body r rest : List Char)
    (hws : ∀ ch ∈ body, wsChar ch = false)
    (h : body ++ r = ' ' :: rest) : body = [] := by
  cases body with
  | nil => rfl
  | cons c0 b1 =>
    injection h with h0 _
    subst h0
    exact absurd (hws ' ' (List.mem_cons_self _ _)) (by decide)

/-- Whitespace-free prefixes of `"a <= b"`. -/
theorem wsfreeBody_a (body r : List Char)
    (hws : ∀ ch ∈ body, wsChar ch = false)
    (h : body ++ r = ['a', ' ', '<', '=', ' ', 'b']) :
    body = [] ∨ body = ['a'] := by
  cases body with
  | nil => exact Or.inl rfl
  | cons c0 b1 =>
    injection h with h0 h
    subst h0
    have hb1 : b1 = [] :=
      wsfreeBody_sp b1 r _ (fun ch hc => hws ch (List.mem_cons_of_mem _ hc)) h
    subst hb1
    exact Or.inr rfl

/-- Whitespace-free prefixes of `"<= b"`. -/
theorem wsfreeBody_leq (body r : List Char)
    (hws : ∀ ch ∈ body, wsChar ch = false)
    (h : body ++ r = ['<', '=', ' ', 'b']) :
    body = [] ∨ body = ['<'] ∨ body = ['<', '='] := by
  cases body with
  | nil => exact Or.inl rfl
  | cons c0 b1 =>
    injection h with h0 h
    subst h0
    cases b1 with
    | nil => exact Or.inr (Or.inl rfl)
    | cons c1 b2 =>
      injection h with h1 h
      subst h1
      have hb2 : b2 = [] :=
        wsfreeBody_sp b2 r _
          (fun ch hc => hws ch (List.mem_cons_of_mem _ (List.mem_cons_of_mem _ hc))) h
      subst hb2
      exact Or.inr (Or.inr rfl)

/-- Prefixes of `"b"`. -/
theorem wsfreeBody_b (body r : List Char)
    (h : body ++ r = ['b']) : body = [] ∨ body = ['b'] := by
  cases body with
  | nil => exact Or.inl rfl
  | cons c0 b1 =>
    injection h with h0 h
    subst h0
    cases b1 with
    | nil => exact Or.inr rfl
    | cons c1 b2 => exact absurd h (by simp)

/-- Membership in `dropLast` gives membership in the list. -/
theorem mem_of_mem_dropLast {l : List Char} {a : Char} (h : a ∈ l.dropLast) :
    a ∈ l :=
  (List.dropLast_sublist l).subset h

/-- No escaped symbol of length at least two matches at position 0 of
`"a <= b"`: the only whitespace-free prefixes there are `""` and `"a"`. -/
theorem matchEsc_none_a (s : List Char) (prev : Option Char)
    (hlen : 1 < s.length) (hws : ∀ ch ∈ s, wsChar ch = false) :
    matchEsc s prev ['a', ' ', '<', '=', ' ', 'b'] = none := by
  have hwsd : ∀ ch ∈ s.dropLast, wsChar ch = false :=
    fun ch hc => hws ch (mem_of_mem_dropLast hc)
  have hwsdd : ∀ ch ∈ s.dropLast.dropLast, wsChar ch = false :=
    fun ch hc => hwsd ch (mem_of_mem_dropLast hc)
  unfold matchEsc
  split
  · split
    · rfl
    · next r1 heq =>
      have hpre := litMatchCh_some_imp _ _ _ heq
      rcases wsfreeBody_a _ _ hwsd hpre.symm with hb | hb <;> rw [hb] at hpre <;>
        simp only [List.cons_append, List.nil_append, List.cons.injEq, true_and] at hpre <;>
        subst hpre <;> decide
  · split
    · split
      · rfl
      · next r1 heq =>
        have hpre := litMatchCh_some_imp _ _ _ heq
        rcases wsfreeBody_a _ _ hwsdd hpre.symm with hb | hb <;> rw [hb] at hpre <;>
          simp only [List.cons_append, List.nil_append, List.cons.injEq, true_and] at hpre <;>
          subst hpre <;> decide
    · split
      · split
        · split
          · rfl
          · next r heq =>
            have hpre := litMatchCh_some_imp _ _ _ heq
            rcases wsfreeBody_a _ _ hws hpre.symm with hb | hb <;> rw [hb] at hlen <;>
              simp at hlen
        · rfl
      · cases hlm : litMatchCh s ['a', ' ', '<', '=', ' ', 'b'] with
        | none => rfl
        | some r =>
          have hpre := litMatchCh_some_imp _ _ _ hlm
          rcases wsfreeBody_a _ _ hws hpre.symm with hb | hb <;> rw [hb] at hlen <;>
            simp at hlen

/-- No escaped symbol of length at least two matches at an input position
holding a space (used at `" <= b"` and `" b"`); the `::`-suffixed case needs
the concrete fact that no `::` follows the whitespace run. -/
theorem matchEsc_none_sp (s : List Char) (prev : Option Char) (rest : List Char)
    (hlen : 1 < s.length) (hws : ∀ ch ∈ s, wsChar ch = false)
    (hdc : litMatchCh [':', ':'] (munchWS rest) = none) :
    matchEsc s prev (' ' :: rest) = none := by
  have hwsd : ∀ ch ∈ s.dropLast, wsChar ch = false :=
    fun ch hc => hws ch (mem_of_mem_dropLast hc)
  have hwsdd : ∀ ch ∈ s.dropLast.dropLast, wsChar ch = false :=
    fun ch hc => hwsd ch (mem_of_mem_dropLast hc)
  unfold matchEsc
  split
  · split
    · rfl
    · next r1 heq =>
      have hpre := litMatchCh_some_imp _ _ _ heq
      have hb := wsfreeBody_sp _ _ _ hwsd hpre.symm
      have hlb := congrArg List.length hb
      rw [List.length_dropLast] at hlb
      simp at hlb
      omega
  · split
    · split
      · rfl
      · next r1 heq =>
        have hpre := litMatchCh_some_imp _ _ _ heq
        have hb := wsfreeBody_sp _ _ _ hwsdd hpre.symm
        rw [hb, List.nil_append] at hpre
        subst hpre
        show (match litMatchCh [':', ':'] (munchWS (' ' :: rest)) with
          | none => none
          | some r3 => some (consumedOf (' ' :: rest) r3, r3)) = none
        rw [show munchWS (' ' :: rest) = munchWS rest from rfl, hdc]
    · split
      · split
        · split
          · rfl
          · next r heq =>
            have hpre := litMatchCh_some_imp _ _ _ heq
            have hb := wsfreeBody_sp _ _ _ hws hpre.symm
            rw [hb] at hlen
            simp at hlen
        · rfl
      · cases hlm : litMatchCh s (' ' :: rest) with
        | none => rfl
        | some r =>
          have hpre := litMatchCh_some_imp _ _ _ hlm
          have hb := wsfreeBody_sp _ _ _ hws hpre.symm
          rw [hb] at hlen
          simp at hlen

/-- No escaped symbol of length at least two matches at the final position
`"b"` of the input. -/
theorem matchEsc_none_b (s : List Char) (prev : Option Char)
    (hlen : 1 < s.length) (_hws : ∀ ch ∈ s, wsChar ch = false) :
    matchEsc s prev ['b'] = none := by
  unfold matchEsc
  split
  · split
    · rfl
    · next r1 heq =>
      have hpre := litMatchCh_some_imp _ _ _ heq
      rcases wsfreeBody_b _ _ hpre.symm with hb | hb
      · have hlb := congrArg List.length hb
        rw [List.length_dropLast] at hlb
        simp at hlb
        omega
      · rw [hb] at hpre
        simp only [List.cons_append, List.nil_append, List.cons.injEq, true_and] at hpre
        subst hpre
        decide
  · split
    · split
      · rfl
      · next r1 heq =>
        have hpre := litMatchCh_some_imp _ _ _ heq
        rcases wsfreeBody_b _ _ hpre.symm with hb | hb <;> rw [hb] at hpre <;>
          simp only [List.cons_append, List.nil_append, List.cons.injEq, true_and] at hpre <;>
          subst hpre <;> decide
    · split
      · split
        · split
          · rfl
          · next r heq =>
            have hpre := litMatchCh_some_imp _ _ _ heq
            rcases wsfreeBody_b _ _ hpre.symm with hb | hb <;> rw [hb] at hlen <;>
              simp at hlen
        · rfl
      · cases hlm : litMatchCh s ['b'] with
        | none => rfl
        | some r =>
          have hpre := litMatchCh_some_imp _ _ _ hlm
          rcases wsfreeBody_b _ _ hpre.symm with hb | hb <;> rw [hb] at hlen <;>
            simp at hlen

/-- The registered symbol `"<="` matches plainly at `"<= b"`. -/
theorem matchEsc_leq_self (prev : Option Char) :
    matchEsc ['<', '='] prev ['<', '=', ' ', 'b'] = some (['<', '='], [' ', 'b']) := rfl

/-- Any other escaped symbol of length at least two fails at `"<= b"`. -/
theorem matchEsc_none_leq (s : List Char) (prev : Option Char)
    (hne : s ≠ ['<', '='])
    (hlen : 1 < s.length) (hws : ∀ ch ∈ s, wsChar ch = false) :
    matchEsc s prev ['<', '=', ' ', 'b'] = none := by
  have hwsd : ∀ ch ∈ s.dropLast, wsChar ch = false :=
    fun ch hc => hws ch (mem_of_mem_dropLast hc)
  have hwsdd : ∀ ch ∈ s.dropLast.dropLast, wsChar ch = false :=
    fun ch hc => hwsd ch (mem_of_mem_dropLast hc)
  unfold matchEsc
  split
  · split
    · rfl
    · next r1 heq =>
      have hpre := litMatchCh_some_imp _ _ _ heq
      rcases wsfreeBody_leq _ _ hwsd hpre.symm with hb | hb | hb <;> rw [hb] at hpre <;>
        simp only [List.cons_append, List.nil_append, List.cons.injEq, true_and] at hpre <;>
        subst hpre <;> decide
  · split
    · split
      · rfl
      · next r1 heq =>
        have hpre := litMatchCh_some_imp _ _ _ heq
        rcases wsfreeBody_leq _ _ hwsdd hpre.symm with hb | hb | hb <;> rw [hb] at hpre <;>
          simp only [List.cons_append, List.nil_append, List.cons.injEq, true_and] at hpre <;>
          subst hpre <;> decide
    · split
      · next hA =>
        split
        · split
          · rfl
          · next r heq =>
            have hpre := litMatchCh_some_imp _ _ _ heq
            rcases wsfreeBody_leq _ _ hws hpre.symm with hb | hb | hb
            · rw [hb] at hlen; simp at hlen
            · rw [hb] at hlen; simp at hlen
            · rw [hb] at hA; exact absurd hA (by decide)
        · rfl
      · cases hlm : litMatchCh s ['<', '=', ' ', 'b'] with
        | none => rfl
        | some r =>
          have hpre := litMatchCh_some_imp _ _ _ hlm
          rcases wsfreeBody_leq _ _ hws hpre.symm with hb | hb | hb
          · rw [hb] at hlen; simp at hlen
          · rw [hb] at hlen; simp at hlen
          · exact absurd hb hne

/-- A regex alternation over alternatives that all fail yields no match. -/
theorem matchMulti_none_of (syms : List (List Char)) (prev : Option Char)
    (t : List Char) (h : ∀ s ∈ syms, matchEsc s prev t = none) :
    matchMulti syms prev t = none := by
  induction syms with
  | nil => rfl
  | cons s rest ih =>
    unfold matchMulti
    rw [h s (List.mem_cons_self _ _)]
    exact ih (fun x hx => h x (List.mem_cons_of_mem _ hx))

/-- At `"<= b"`, the alternation of the registered multi-character symbols
matches `"<="` whenever it is among them. -/
theorem matchMulti_leq (syms : List (List Char)) (prev : Option Char)
    (hprops : ∀ s ∈ syms, 1 < s.length ∧ ∀ ch ∈ s, wsChar ch = false)
    (hmem : ['<', '='] ∈ syms) :
    matchMulti syms prev ['<', '=', ' ', 'b'] = some (['<', '='], [' ', 'b']) := by
  induction syms with
  | nil => exact absurd hmem (by simp)
  | cons s rest ih =>
    by_cases hs : s = ['<', '=']
    · subst hs
      unfold matchMulti
      rw [matchEsc_leq_self]
    · unfold matchMulti
      rw [matchEsc_none_leq s prev hs (hprops s (List.mem_cons_self _ _)).1
        (hprops s (List.mem_cons_self _ _)).2]
      refine ih (fun x hx => hprops x (List.mem_cons_of_mem _ hx)) ?_
      rcases List.mem_cons.mp hmem with he | hr
      · exact absurd he.symm hs
      · exact hr

/-- One scanning step that skips an unmatched character. -/
theorem scanAux_cons_skip (m s : List (List Char)) (fuel : Nat)
    (prev : Option Char) (c : Char) (rest : List Char)
    (h1 : matchLit (c :: rest) = none)
    (h2 : matchMulti m prev (c :: rest) = none)
    (h3 : singlesHas s c = false)
    (h4 : matchName (c :: rest) = none) :
    scanAux m s (fuel + 1) prev (c :: rest) = scanAux m s fuel (some c) rest := by
  conv_lhs => unfold scanAux
  rw [h1, h2, h3, h4]
  try rfl

/-- One scanning step that emits a multi-character operator token. -/
theorem scanAux_cons_op (m s : List (List Char)) (fuel : Nat)
    (prev : Option Char) (c : Char) (rest : List Char)
    (mtext r : List Char)
    (h1 : matchLit (c :: rest) = none)
    (h2 : matchMulti m prev (c :: rest) = some (mtext, r)) :
    scanAux m s (fuel + 1) prev (c :: rest) =
      RawTok.op mtext :: scanAux m s fuel (lastCharOf mtext prev) r := by
  conv_lhs => unfold scanAux
  rw [h1, h2]
  try rfl

/-- One scanning step that emits a single-character operator token. -/
theorem scanAux_cons_single (m s : List (List Char)) (fuel : Nat)
    (prev : Option Char) (c : Char) (rest : List Char)
    (h1 : matchLit (c :: rest) = none)
    (h2 : matchMulti m prev (c :: rest) = none)
    (h3 : singlesHas s c = true) :
    scanAux m s (fuel + 1) prev (c :: rest) =
      RawTok.op [c] :: scanAux m s fuel (some c) rest := by
  conv_lhs => unfold scanAux
  rw [h1, h2, h3]
  try rfl

/-- One scanning step that emits a name token. -/
theorem scanAux_cons_name (m s : List (List Char)) (fuel : Nat)
    (prev : Option Char) (c : Char) (rest : List Char)
    (mtext r : List Char)
    (h1 : matchLit (c :: rest) = none)
    (h2 : matchMulti m prev (c :: rest) = none)
    (h3 : singlesHas s c = false)
    (h4 : matchName (c :: rest) = some (mtext, r)) :
    scanAux m s (fuel + 1) prev (c :: rest) =
      RawTok.nm mtext :: scanAux m s fuel (lastCharOf mtext prev) r := by
  conv_lhs => unfold scanAux
  rw [h1, h2, h3, h4]
  try rfl

/-- Scanning an exhausted input yields no further tokens. -/
theorem scanAux_nil (m s : List (List Char)) (fuel : Nat) (prev : Option Char) :
    scanAux m s (fuel + 1) prev [] = [] := rfl

/-- Scanning `"a <= b"` with whitespace-free multi-character symbols that
include `"<="` and a single-character class without whitespace yields a
token for `a`, the operator `<=`, and a token for `b`. -/
theorem scanAux_leq (multi singles : List (List Char))
    (hm : ∀ s ∈ multi, 1 < s.length ∧ ∀ ch ∈ s, wsChar ch = false)
    (hsp : singlesHas singles ' ' = false)
    (hmem : ['<', '='] ∈ multi) :
    ∃ ta tb, scanAux multi singles 7 none srcLeq = [ta, RawTok.op ['<', '='], tb] ∧
      ta.text = ['a'] ∧ tb.text = ['b'] := by
  have hm1 := fun s hs => (hm s hs).1
  have hm2 := fun s hs => (hm s hs).2
  have hmm0 : matchMulti multi none srcLeq = none :=
    matchMulti_none_of _ _ _ (fun s hs => matchEsc_none_a s none (hm1 s hs) (hm2 s hs))
  have hmm1 : matchMulti multi (some 'a') [' ', '<', '=', ' ', 'b'] = none :=
    matchMulti_none_of _ _ _
      (fun s hs => matchEsc_none_sp s (some 'a') _ (hm1 s hs) (hm2 s hs) rfl)
  have hmm2 : matchMulti multi (some ' ') ['<', '=', ' ', 'b'] =
      some (['<', '='], [' ', 'b']) :=
    matchMulti_leq multi (some ' ') hm hmem
  have hmm4 : matchMulti multi (some '=') [' ', 'b'] = none :=
    matchMulti_none_of _ _ _
      (fun s hs => matchEsc_none_sp s (some '=') _ (hm1 s hs) (hm2 s hs) rfl)
  have hmm5 : matchMulti multi (some ' ') ['b'] = none :=
    matchMulti_none_of _ _ _
      (fun s hs => matchEsc_none_b s (some ' ') (hm1 s hs) (hm2 s hs))
  have e1 : scanAux multi singles 6 (some 'a') [' ', '<', '=', ' ', 'b'] =
      scanAux multi singles 5 (some ' ') ['<', '=', ' ', 'b'] :=
    scanAux_cons_skip multi singles 5 (some 'a') ' ' _ rfl hmm1 hsp rfl
  have e2 : scanAux multi singles 5 (some ' ') ['<', '=', ' ', 'b'] =
      RawTok.op ['<', '='] :: scanAux multi singles 4 (some '=') [' ', 'b'] :=
    scanAux_cons_op multi singles 4 (some ' ') '<' _ _ _ rfl hmm2
  have e3 : scanAux multi singles 4 (some '=') [' ', 'b'] =
      scanAux multi singles 3 (some ' ') ['b'] :=
    scanAux_cons_skip multi singles 3 (some '=') ' ' _ rfl hmm4 hsp rfl
  have e4 : scanAux multi singles 3 (some ' ') ['b'] =
      (if singlesHas singles 'b' then RawTok.op ['b'] else RawTok.nm ['b']) ::
        scanAux multi singles 2 (some 'b') [] := by
    cases hbb : singlesHas singles 'b' with
    | true =>
      exact scanAux_cons_single multi singles 2 (some ' ') 'b' _ rfl hmm5 hbb
    | false =>
      exact scanAux_cons_name multi singles 2 (some ' ') 'b' _ _ _ rfl hmm5 hbb rfl
  have e0 : scanAux multi singles 7 none srcLeq =
      (if singlesHas singles 'a' then RawTok.op ['a'] else RawTok.nm ['a']) ::
        scanAux multi singles 6 (some 'a') [' ', '<', '=', ' ', 'b'] := by
    cases hba : singlesHas singles 'a' with
    | true =>
      exact scanAux_cons_single multi singles 6 none 'a' _ rfl hmm0 hba
    | false =>
      exact scanAux_cons_name multi singles 6 none 'a' _ _ _ rfl hmm0 hba rfl
  refine ⟨(if singlesHas singles 'a' then RawTok.op ['a'] else RawTok.nm ['a']),
    (if singlesHas singles 'b' then RawTok.op ['b'] else RawTok.nm ['b']), ?_, ?_, ?_⟩
  · rw [e0, e1, e2, e3, e4, scanAux_nil]
  · cases hba : singlesHas singles 'a' <;> simp [hba, RawTok.text]
  · cases hbb : singlesHas singles 'b' <;> simp [hbb, RawTok.text]

/-- `dropWhile wsChar` is the identity on whitespace-free lists. -/
theorem dropWhile_wsfree (l : List Char) (h : ∀ ch ∈ l, wsChar ch = false) :
    l.dropWhile wsChar = l := by
  cases l with
  | nil => rfl
  | cons c cs => simp [List.dropWhile_cons, h c (List.mem_cons_self _ _)]

/-- `str.strip()` is the identity on whitespace-free strings. -/
theorem trimWS_eq_self (l : List Char) (h : ∀ ch ∈ l, wsChar ch = false) :
    trimWS l = l := by
  unfold trimWS
  rw [dropWhile_wsfree l h,
    dropWhile_wsfree l.reverse (fun c hc => h c (List.mem_reverse.mp hc)),
    List.reverse_reverse]

/-- Every member of the sorted, trimmed symbol list is an untouched member
of the registered set: nonempty and whitespace-free. -/
theorem mem_sortSyms (syms : List (List Char))
    (hws : ∀ s ∈ syms, ∀ ch ∈ s, wsChar ch = false) :
    ∀ x ∈ sortSyms syms, x ∈ syms ∧ x ≠ [] ∧ ∀ ch ∈ x, wsChar ch = false := by
  intro x hx
  unfold sortSyms at hx
  have hx1 := (List.perm_insertionSort symLonger _).mem_iff.mp hx
  have hx2 := List.mem_filter.mp hx1
  obtain ⟨y, hy, hxy⟩ := List.mem_map.mp hx2.1
  have hyws := hws y hy
  rw [trimWS_eq_self y hyws] at hxy
  subst hxy
  refine ⟨hy, ?_, hyws⟩
  intro he
  rw [he] at hx2
  simp at hx2

/-- On a length-descending list the `fence` prefix is exactly the
multi-character part. -/
theorem fence_take (l : List (List Char)) (h : List.Pairwise symLonger l) :
    l.take (fenceOf l) = l.filter (fun s => 1 < s.length) := by
  induction l with
  | nil => rfl
  | cons s rest ih =>
    rcases List.pairwise_cons.mp h with ⟨hall, hrest⟩
    by_cases hs : 1 < s.length
    · have hf : fenceOf (s :: rest) = fenceOf rest + 1 := by
        unfold fenceOf
        simp [List.filter_cons, hs]
      rw [hf, List.take_succ_cons, ih hrest]
      simp [List.filter_cons, hs]
    · have hf : fenceOf (s :: rest) = 0 := by
        unfold fenceOf
        have : List.filter (fun s => decide (1 < s.length)) (s :: rest) = [] := by
          rw [List.filter_eq_nil_iff]
          intro a ha
          rcases List.mem_cons.mp ha with h1 | h1
          · subst h1; simpa using hs
          · have := hall a h1
            simp only [symLonger] at this
            simp
            omega
        rw [this]
        rfl
      rw [hf, List.take_zero]
      symm
      rw [List.filter_eq_nil_iff]
      intro a ha
      rcases List.mem_cons.mp ha with h1 | h1
      · subst h1; simpa using hs
      · have := hall a h1
        simp only [symLonger] at this
        simp
        omega

/-- Tokenizing `"a <= b"` against any whitespace-free registered symbol set
containing `"<="` yields a token for `a`, the operator token `<=`, and a
token for `b`. -/
theorem tokenize_leq (syms : List (List Char))
    (hws : ∀ s ∈ syms, ∀ ch ∈ s, wsChar ch = false)
    (hmem : ['<', '='] ∈ syms) :
    ∃ ta tb, tokenize syms srcLeq = [ta, RawTok.op ['<', '='], tb] ∧
      ta.text = ['a'] ∧ tb.text = ['b'] := by
  have hsorted : List.Pairwise symLonger (sortSyms syms) := by
    unfold sortSyms
    exact List.sorted_insertionSort symLonger _
  have hmemall := mem_sortSyms syms hws
  have hfence := fence_take (sortSyms syms) hsorted
  have hC1 : (createTokSyms syms).1 =
      (sortSyms syms).filter (fun s => 1 < s.length) := hfence
  have hmulti : ∀ s ∈ (createTokSyms syms).1,
      1 < s.length ∧ ∀ ch ∈ s, wsChar ch = false := by
    intro s hs
    rw [hC1] at hs
    have h2 := List.mem_filter.mp hs
    exact ⟨by simpa using h2.2, (hmemall s h2.1).2.2⟩
  have hmemm : ['<', '='] ∈ (createTokSyms syms).1 := by
    rw [hC1]
    refine List.mem_filter.mpr ⟨?_, by decide⟩
    unfold sortSyms
    refine (List.perm_insertionSort symLonger _).mem_iff.mpr ?_
    exact List.mem_filter.mpr ⟨List.mem_map.mpr ⟨['<', '='], hmem, by decide⟩, by decide⟩
  have hsp : singlesHas (createTokSyms syms).2 ' ' = false := by
    cases hx : singlesHas (createTokSyms syms).2 ' ' with
    | false => rfl
    | true =>
      exfalso
      obtain ⟨x, hx1, hx2⟩ := List.any_eq_true.mp hx
      have hxe : x = [' '] := of_decide_eq_true hx2
      subst hxe
      have hmem2 : [' '] ∈ sortSyms syms :=
        List.drop_subset _ _ hx1
      have := (hmemall _ hmem2).2.2 ' ' (List.mem_cons_self _ _)
      exact absurd this (by decide)
  exact scanAux_leq (createTokSyms syms).1 (createTokSyms syms).2 hmulti hsp hmemm

/-- **C5.** The compiled tokenizer matches operator symbols longest-first:
for any whitespace-free registered symbol set containing `"<="`, tokenizing
`"a <= b"` yields the single two-character operator token `"<="` flanked
only by the tokens for `a` and `b` — never a `"<"` or `"="` token; in
particular, registering `{"<", "<="}` gives `[name a, op <=, name b]`. -/
theorem c5_longest_match_tokenizing :
    (∀ syms : List (List Char),
        (∀ s ∈ syms, ∀ ch ∈ s, wsChar ch = false) → ['<', '='] ∈ syms →
        ∃ ta tb, tokenize syms srcLeq = [ta, RawTok.op ['<', '='], tb] ∧
          ta.text = ['a'] ∧ tb.text = ['b'] ∧
          ∀ tk ∈ tokenize syms srcLeq, tk.text ≠ ['<'] ∧ tk.text ≠ ['=']) ∧
    tokenize [['<'], ['<', '=']] srcLeq =
      [RawTok.nm ['a'], RawTok.op ['<', '='], RawTok.nm ['b']] := by
  constructor
  · intro syms hws hmem
    obtain ⟨ta, tb, hlist, hta, htb⟩ := tokenize_leq syms hws hmem
    refine ⟨ta, tb, hlist, hta, htb, ?_⟩
    intro tk htk
    rw [hlist] at htk
    rcases List.mem_cons.mp htk with h | h
    · subst h; rw [hta]; exact ⟨by decide, by decide⟩
    rcases List.mem_cons.mp h with h | h
    · subst h; exact ⟨by decide, by decide⟩
    rcases List.mem_cons.mp h with h | h
    · subst h; rw [htb]; exact ⟨by decide, by decide⟩
    · exact absurd h (by simp)
  · rfl

theorem c5_longest_match_tokenizing_witness :
    ∃ ta tb, tokenize [['<'], ['<', '=']] srcLeq = [ta, RawTok.op ['<', '='], tb] ∧
      ta.text = ['a'] ∧ tb.text = ['b'] ∧
      ∀ tk ∈ tokenize [['<'], ['<', '=']] srcLeq,
        tk.text ≠ ['<'] ∧ tk.text ≠ ['='] :=
  c5_longest_match_tokenizing.1 [['<'], ['<', '=']] (by decide) (by decide)

end ElementPath
